import Mathlib

/-! 3dViewer: the geometry and transform state engine (`s21::ViewerModel`)

A shallow embedding of `src/viewer_model/viewer_model.cpp` and
`src/viewer_model/strucutures.h`.

Modelling conventions

* A C++ `float` is an exact rational (`ℚ`): rounding, overflow, infinities and
  NaN are outside the model.  Decimal literals of the source (`0.5f`, `0.1f`,
  `0.005`, ...) denote the exact decimal fraction.
* The object state of `ViewerModel` is the record `ViewerModel`; every member
  function is a function from the state before the call to the state after it.
* A text file is the list of its characters; `none` stands for a path that
  `std::ifstream` cannot open.
* `unsigned long` is 64 bits wide and `unsigned int` 32 bits wide (LP64).
-/

namespace s21

/-! ## Data model (`strucutures.h`) -/

/-- The enum `ProjectionType`. -/
inductive ProjectionType where
  | Parallel
  | Perspective
  deriving DecidableEq, Repr

/-- The enum `VerticeType`, with codes `Square = 0`, `Circle = 1`, `None = 2`. -/
inductive VerticeType where
  | Square
  | Circle
  | None
  deriving DecidableEq, Repr

/-- The struct `AffineTransform` with its default member initialisers. -/
structure AffineTransform where
  projectionType : ProjectionType := ProjectionType.Parallel
  rotateAngleX : ℚ := 0
  rotateAngleY : ℚ := 0
  rotateAngleZ : ℚ := 0
  scaleFactor : ℚ := 1
  translateX : ℚ := 0
  translateY : ℚ := 0
  translateZ : ℚ := 0
  fov : ℚ := 45
  deriving DecidableEq, Repr

/-- A `QColor` as far as the model stores it: validity flag and 8-bit channels. -/
structure QColor where
  valid : Bool := false
  red : Fin 256 := 0
  green : Fin 256 := 0
  blue : Fin 256 := 0
  alpha : Fin 256 := 255
  deriving DecidableEq, Repr

/-- The struct `ModelDefinition` with its default member initialisers. -/
structure ModelDefinition where
  facetColor : QColor := {}
  facetWidth : ℚ := 0
  verticeColor : QColor := {}
  verticeType : VerticeType := VerticeType.Square
  verticeWidth : ℚ := 5
  backgroundColor : QColor := {}
  deriving DecidableEq, Repr

/-- The enum `translateAction`. -/
inductive translateAction where
  | translateXPlus
  | translateXMinus
  | translateYPlus
  | translateYMinus
  | translateZPlus
  | translateZMinus
  deriving DecidableEq, Repr

/-- The enum `rotateAction`. -/
inductive rotateAction where
  | rotateXPlus
  | rotateXMinus
  | rotateYPlus
  | rotateYMinus
  | rotateZPlus
  | rotateZMinus
  deriving DecidableEq, Repr

/-- The enum `ScaleType`. -/
inductive ScaleType where
  | scalePlus
  | scaleMinus
  deriving DecidableEq, Repr

/-- A `QVector3D`: three float coordinates. -/
structure QVector3D where
  x : ℚ := 0
  y : ℚ := 0
  z : ℚ := 0
  deriving DecidableEq, Repr

/-- A `QPoint`: two `int` coordinates. -/
structure QPoint where
  x : Int
  y : Int
  deriving DecidableEq, Repr

/-- The data members of `class ViewerModel` (the strategy pointer `setColor_`
carries no state of its own and is left out). -/
structure ViewerModel where
  vertices : List QVector3D := []
  facets : List Nat := []
  affine_transform : AffineTransform := {}
  modelDefinition : ModelDefinition := {}
  deriving DecidableEq, Repr

/-- A model right after construction: empty mesh, default `AffineTransform`, and the
`ModelDefinition` that the constructor's `readModelDefinition()` left behind
(which writes `modelDefinition` only). -/
def freshModel (md : ModelDefinition) : ViewerModel :=
  { vertices := [], facets := [], affine_transform := {}, modelDefinition := md }

/-! ## Transform mutators (`viewer_model.cpp`, lines 13-149, 291-303) -/

/-- Member function `ViewerModel::translateFigure`. -/
def translateFigure (m : ViewerModel) (translateAct : translateAction)
    (translateValue : ℚ) : ViewerModel :=
  let translateValue := if translateValue = 0 then (0.5 : ℚ) else translateValue
  let t := m.affine_transform
  match translateAct with
  | translateAction.translateXPlus =>
    { m with affine_transform := { t with translateX := t.translateX + translateValue } }
  | translateAction.translateXMinus =>
    { m with affine_transform := { t with translateX := t.translateX - translateValue } }
  | translateAction.translateYPlus =>
    { m with affine_transform := { t with translateY := t.translateY + translateValue } }
  | translateAction.translateYMinus =>
    { m with affine_transform := { t with translateY := t.translateY - translateValue } }
  | translateAction.translateZPlus =>
    { m with affine_transform := { t with translateZ := t.translateZ + translateValue } }
  | translateAction.translateZMinus =>
    { m with affine_transform := { t with translateZ := t.translateZ - translateValue } }

/-- Member function `ViewerModel::rotateAxis`. -/
def rotateAxis (m : ViewerModel) (rotateAct : rotateAction) (rotateValue : ℚ) :
    ViewerModel :=
  let rotateValue := if rotateValue = 0 then (15.0 : ℚ) else rotateValue
  let t := m.affine_transform
  match rotateAct with
  | rotateAction.rotateXPlus =>
    { m with affine_transform := { t with rotateAngleX := t.rotateAngleX + rotateValue } }
  | rotateAction.rotateXMinus =>
    { m with affine_transform := { t with rotateAngleX := t.rotateAngleX - rotateValue } }
  | rotateAction.rotateYPlus =>
    { m with affine_transform := { t with rotateAngleY := t.rotateAngleY + rotateValue } }
  | rotateAction.rotateYMinus =>
    { m with affine_transform := { t with rotateAngleY := t.rotateAngleY - rotateValue } }
  | rotateAction.rotateZPlus =>
    { m with affine_transform := { t with rotateAngleZ := t.rotateAngleZ + rotateValue } }
  | rotateAction.rotateZMinus =>
    { m with affine_transform := { t with rotateAngleZ := t.rotateAngleZ - rotateValue } }

/-- Member function `ViewerModel::setProjection`. -/
def setProjection (m : ViewerModel) (prog_type : ProjectionType) : ViewerModel :=
  if prog_type = ProjectionType.Parallel then
    { m with affine_transform :=
        { m.affine_transform with projectionType := ProjectionType.Parallel } }
  else
    { m with affine_transform :=
        { m.affine_transform with projectionType := ProjectionType.Perspective } }

/-- Member function `ViewerModel::scaleFigure`: the field of the current projection mode is stepped
and then passed through the two saturating `if`s of the source, in their order. -/
def scaleFigure (m : ViewerModel) (scaleF : ScaleType) (scaleValue : ℚ) : ViewerModel :=
  let t := m.affine_transform
  if t.projectionType = ProjectionType.Perspective then
    let delta_fov : ℚ := if scaleValue = 0 then 3.0 else scaleValue
    let fov1 := if scaleF = ScaleType.scalePlus then t.fov - delta_fov else t.fov + delta_fov
    let fov2 := if fov1 < 10.0 then 10.0 else fov1
    let fov3 := if fov2 > 120.0 then 120.0 else fov2
    { m with affine_transform := { t with fov := fov3 } }
  else
    let delta_scale : ℚ := if scaleValue = 0 then 0.1 else scaleValue
    let s1 :=
      if scaleF = ScaleType.scalePlus then t.scaleFactor + delta_scale
      else t.scaleFactor - delta_scale
    let s2 := if s1 < 0.1 then 0.1 else s1
    let s3 := if s2 > 10.0 then 10.0 else s2
    { m with affine_transform := { t with scaleFactor := s3 } }

/-- Member function `ViewerModel::setDefault`: `flag` is the C++ `int`, tested for being non-zero. -/
def setDefault (m : ViewerModel) (flag : Int) : ViewerModel :=
  let t : AffineTransform :=
    { projectionType := ProjectionType.Parallel
      rotateAngleX := 0.0
      rotateAngleY := 0.0
      rotateAngleZ := 0.0
      scaleFactor := 1.0
      translateX := 0.0
      translateY := 0.0
      translateZ := 0.0
      fov := 45.0 }
  if flag ≠ 0 then
    { m with
      affine_transform := t
      modelDefinition :=
        { m.modelDefinition with
          facetWidth := 0.0
          verticeType := VerticeType.Square
          verticeWidth := 5.0 } }
  else
    { m with affine_transform := t }

/-- Member function `ViewerModel::MouseButtonMove`. -/
def MouseButtonMove (m : ViewerModel) (delta : QPoint) : ViewerModel :=
  let t := m.affine_transform
  { m with affine_transform :=
      { t with
        rotateAngleX := t.rotateAngleX + (delta.y : ℚ)
        rotateAngleY := t.rotateAngleY + (delta.x : ℚ) } }

/-- Member function `ViewerModel::MouseWheelMove`. -/
def MouseWheelMove (m : ViewerModel) (delta : QPoint) : ViewerModel :=
  let t := m.affine_transform
  { m with affine_transform := { t with rotateAngleZ := t.rotateAngleZ + (delta.x : ℚ) } }

/-! ## Style mutators (`viewer_model.cpp`, lines 156-284) -/

/-- Member function `ViewerModel::setFacetWidth`. -/
def setFacetWidth (m : ViewerModel) (scaleF : ScaleType) : ViewerModel :=
  let d := m.modelDefinition
  if scaleF = ScaleType.scalePlus then
    if d.facetWidth = 0 then { m with modelDefinition := { d with facetWidth := 0.005 } }
    else { m with modelDefinition := { d with facetWidth := d.facetWidth + 0.0005 } }
  else if scaleF = ScaleType.scaleMinus then
    if d.facetWidth = 0 then { m with modelDefinition := { d with facetWidth := 0.005 } }
    else if d.facetWidth ≥ 0.001 then
      { m with modelDefinition := { d with facetWidth := d.facetWidth - 0.0005 } }
    else m
  else m

/-- Member function `ViewerModel::setVerticeWidth`. -/
def setVerticeWidth (m : ViewerModel) (scaleF : ScaleType) : ViewerModel :=
  let d := m.modelDefinition
  if scaleF = ScaleType.scalePlus then
    if d.verticeWidth ≤ 12.0 then
      { m with modelDefinition := { d with verticeWidth := d.verticeWidth + 1.0 } }
    else m
  else if scaleF = ScaleType.scaleMinus then
    if d.verticeWidth ≥ 2.0 then
      { m with modelDefinition := { d with verticeWidth := d.verticeWidth - 1.0 } }
    else m
  else m

/-- Member function `ViewerModel::setVerticeType`. -/
def setVerticeType (m : ViewerModel) (verticeType : VerticeType) : ViewerModel :=
  { m with modelDefinition := { m.modelDefinition with verticeType := verticeType } }

/-- Member function `ViewerModel::setFacetColor` (through `SetFacetColor::setColor`). -/
def setFacetColor (m : ViewerModel) (FacetColor : QColor) : ViewerModel :=
  { m with modelDefinition := { m.modelDefinition with facetColor := FacetColor } }

/-- Member function `ViewerModel::setVerticeColor` (through `SetVerticeColor::setColor`). -/
def setVerticeColor (m : ViewerModel) (VerticeColor : QColor) : ViewerModel :=
  { m with modelDefinition := { m.modelDefinition with verticeColor := VerticeColor } }

/-- Member function `ViewerModel::setBackGroundColor` (through `SetBackGroundColor::setColor`). -/
def setBackGroundColor (m : ViewerModel) (backGroundColor : QColor) : ViewerModel :=
  { m with modelDefinition := { m.modelDefinition with backgroundColor := backGroundColor } }

/-! ## Normalisation (`viewer_model.cpp`, lines 381-415) -/

/-- The running minimum of the first loop of `normalizeVertices` over one coordinate,
started at the value taken from `vertices[0]`. -/
def foldMin (c : QVector3D → ℚ) (init : ℚ) (vs : List QVector3D) : ℚ :=
  vs.foldl (fun a v => min a (c v)) init

/-- The running maximum of the first loop of `normalizeVertices` over one coordinate. -/
def foldMax (c : QVector3D → ℚ) (init : ℚ) (vs : List QVector3D) : ℚ :=
  vs.foldl (fun a v => max a (c v)) init

/-- The local `maxSize` of `normalizeVertices` for a mesh whose first vertex is `v0`:
the largest of the three bounding-box extents. -/
def maxSize (v0 : QVector3D) (vs : List QVector3D) : ℚ :=
  let sizeX := foldMax QVector3D.x v0.x vs - foldMin QVector3D.x v0.x vs
  let sizeY := foldMax QVector3D.y v0.y vs - foldMin QVector3D.y v0.y vs
  let sizeZ := foldMax QVector3D.z v0.z vs - foldMin QVector3D.z v0.z vs
  max sizeX (max sizeY sizeZ)

/-- The locals `centerX`, `centerY`, `centerZ` of `normalizeVertices`. -/
def center (v0 : QVector3D) (vs : List QVector3D) : QVector3D :=
  { x := (foldMin QVector3D.x v0.x vs + foldMax QVector3D.x v0.x vs) / 2.0
    y := (foldMin QVector3D.y v0.y vs + foldMax QVector3D.y v0.y vs) / 2.0
    z := (foldMin QVector3D.z v0.z vs + foldMax QVector3D.z v0.z vs) / 2.0 }

/-- The body of the second loop of `normalizeVertices` for one vertex. -/
def normalizePoint (c : QVector3D) (size : ℚ) (v : QVector3D) : QVector3D :=
  { x := (v.x - c.x) / size * 2.0
    y := (v.y - c.y) / size * 2.0
    z := (v.z - c.z) / size * 2.0 }

/-- Member function `ViewerModel::normalizeVertices`.  Where `maxSize` is `0` the source
divides a float by zero; the rational model has no value for that, and the
coordinates it returns there (by the convention `x / 0 = 0`) carry no meaning. -/
def normalizeVertices (m : ViewerModel) : ViewerModel :=
  match m.vertices with
  | [] => m
  | v0 :: _ =>
    { m with vertices :=
        m.vertices.map (normalizePoint (center v0 m.vertices) (maxSize v0 m.vertices)) }

/-! ## Text scanning used by `loadOBJ` (`viewer_model.cpp`, lines 328-343) -/

/-- The function `std::isspace` in the "C" locale. -/
def isspace (c : Char) : Bool :=
  c = ' ' || c = '\t' || c = '\n' || c = '\x0b' || c = '\x0c' || c = '\r'

/-- The lines delivered by `while (std::getline(file, line))`: the text is cut at
every newline; a last line without a newline is delivered, an empty remainder is not. -/
def getlines : List Char → List (List Char)
  | [] => []
  | c :: cs =>
    if c = '\n' then [] :: getlines cs
    else
      match getlines cs with
      | [] => [[c]]
      | l :: ls => (c :: l) :: ls

/-- The tokens delivered by `while (s >> token)` on a string stream: maximal runs of
non-whitespace characters, in order. -/
def tokens : List Char → List (List Char)
  | [] => []
  | c :: cs =>
    if isspace c then tokens cs
    else
      match cs with
      | [] => [[c]]
      | d :: _ =>
        if isspace d then [c] :: tokens cs
        else
          match tokens cs with
          | [] => [[c]]
          | t :: ts => (c :: t) :: ts

/-- The value of a run of decimal digits. -/
def digitsValue (ds : List Char) : Nat :=
  ds.foldl (fun acc c => acc * 10 + (c.toNat - '0'.toNat)) 0

/-- The exceptions of `std::stoul`. -/
inductive StoulError where
  | invalid_argument
  | out_of_range
  deriving DecidableEq, Repr

/-- The `std::stoul` call with base 10 (`strtoul`): leading whitespace is skipped,
one sign is accepted, the longest run of digits is converted, anything after it is
left alone.  No digit: `invalid_argument`; a magnitude above `ULONG_MAX`:
`out_of_range`; a minus sign negates the result in `unsigned long`. -/
def stoul (s : List Char) : Except StoulError Nat :=
  let s1 := s.dropWhile isspace
  let neg : Bool := s1.head? = some '-'
  let s2 := if s1.head? = some '-' ∨ s1.head? = some '+' then s1.tail else s1
  let ds := s2.takeWhile Char.isDigit
  if ds = [] then Except.error StoulError.invalid_argument
  else if digitsValue ds ≥ 2 ^ 64 then Except.error StoulError.out_of_range
  else if neg then Except.ok ((2 ^ 64 - digitsValue ds) % 2 ^ 64)
  else Except.ok (digitsValue ds)

/-- The index pushed for one face token:
`unsigned int index = std::stoul(token.substr(0, token.find('/'))) - 1;`
the subtraction is done in `unsigned long`, the result narrowed to `unsigned int`. -/
def faceIndex (token : List Char) : Except StoulError Nat :=
  match stoul (token.takeWhile (fun c => c ≠ '/')) with
  | Except.error e => Except.error e
  | Except.ok v => Except.ok (((v + 2 ^ 64 - 1) % 2 ^ 64) % 2 ^ 32)

/-- The inner loop over the tokens of an `f` line: indices are pushed one by one;
an exception leaves what was pushed before it. -/
def scanFace : List (List Char) → List Nat → List Nat × Option StoulError
  | [], facets => (facets, none)
  | token :: rest, facets =>
    match faceIndex token with
    | Except.error e => (facets, some e)
    | Except.ok index => scanFace rest (facets ++ [index])

/-- The decimal field accepted by `operator>>(float&)`: an optional sign, digits, an
optional point with digits, and, once a digit was seen, an optional exponent mark
with its own optional sign and digits. -/
structure FloatField where
  negative : Bool
  intDigits : List Char
  fracDigits : List Char
  hasExp : Bool
  expNegative : Bool
  expDigits : List Char
  rest : List Char
  deriving DecidableEq, Repr

/-- The characters that the stream takes for one `float`, after leading whitespace:
the accumulation loop of the extraction in the "C" locale. -/
def takeFloatField (s : List Char) : FloatField :=
  let negative : Bool := s.head? = some '-'
  let s1 := if s.head? = some '-' ∨ s.head? = some '+' then s.tail else s
  let intDigits := s1.takeWhile Char.isDigit
  let s2 := s1.dropWhile Char.isDigit
  let hasPoint : Bool := s2.head? = some '.'
  let fracDigits := if hasPoint then s2.tail.takeWhile Char.isDigit else []
  let s3 := if hasPoint then s2.tail.dropWhile Char.isDigit else s2
  let mantissa : Bool := intDigits ≠ [] ∨ fracDigits ≠ []
  let hasExp : Bool := mantissa ∧ (s3.head? = some 'e' ∨ s3.head? = some 'E')
  let s4 := if hasExp then s3.tail else s3
  let expNegative : Bool := hasExp ∧ s4.head? = some '-'
  let s5 := if hasExp ∧ (s4.head? = some '-' ∨ s4.head? = some '+') then s4.tail else s4
  let expDigits := if hasExp then s5.takeWhile Char.isDigit else []
  let s6 := if hasExp then s5.dropWhile Char.isDigit else s5
  { negative := negative, intDigits := intDigits, fracDigits := fracDigits,
    hasExp := hasExp, expNegative := expNegative, expDigits := expDigits, rest := s6 }

/-- The value of an accepted field, exactly; `none` when the field is not a complete
number (no mantissa digit, or an exponent mark without exponent digits). -/
def FloatField.value (f : FloatField) : Option ℚ :=
  if f.intDigits = [] ∧ f.fracDigits = [] then none
  else if f.hasExp ∧ f.expDigits = [] then none
  else
    let mant : ℚ :=
      (digitsValue f.intDigits : ℚ) +
        (digitsValue f.fracDigits : ℚ) / (10 : ℚ) ^ f.fracDigits.length
    let scaled : ℚ :=
      if f.expNegative then mant / (10 : ℚ) ^ digitsValue f.expDigits
      else mant * (10 : ℚ) ^ digitsValue f.expDigits
    some (if f.negative then -scaled else scaled)

/-- One `s >> x` for a `float` on a string stream in good state: the value read, or
`none` when the extraction fails (the stream is then in the failed state), together
with the unread characters. -/
def extractFloat (s : List Char) : Option ℚ × List Char :=
  let s1 := s.dropWhile isspace
  if s1 = [] then (none, [])
  else
    let f := takeFloatField s1
    (f.value, f.rest)

/-- The statement `QVector3D v; s >> v[0] >> v[1] >> v[2];`: `v` starts as the null
vector; a failed extraction stores `0`, throws nothing, and turns the extractions
after it into no-ops. -/
def readVertex (s : List Char) : QVector3D :=
  match extractFloat s with
  | (none, _) => { x := 0, y := 0, z := 0 }
  | (some x, r1) =>
    match extractFloat r1 with
    | (none, _) => { x := x, y := 0, z := 0 }
    | (some y, r2) =>
      match extractFloat r2 with
      | (none, _) => { x := x, y := y, z := 0 }
      | (some z, _) => { x := x, y := y, z := z }

/-- The body of the `while (std::getline(file, line))` loop for one line. -/
def scanLine (line : List Char) (m : ViewerModel) : ViewerModel × Option StoulError :=
  if line.take 2 = ['v', ' '] then
    ({ m with vertices := m.vertices ++ [readVertex (line.drop 2)] }, none)
  else if line.take 2 = ['f', ' '] then
    let r := scanFace (tokens (line.drop 2)) m.facets
    ({ m with facets := r.1 }, r.2)
  else (m, none)

/-- The `while (std::getline(file, line))` loop: an exception thrown in a line ends
the scan and leaves the state reached so far. -/
def scanLines : List (List Char) → ViewerModel → ViewerModel × Option StoulError
  | [], m => (m, none)
  | line :: rest, m =>
    match scanLine line m with
    | (m1, some e) => (m1, some e)
    | (m1, none) => scanLines rest m1

/-- How a call of `loadOBJ` ends. -/
inductive LoadStatus where
  | openFailed
  | parseError (e : StoulError)
  | loaded
  deriving DecidableEq, Repr

/-- Member function `ViewerModel::loadOBJ`.  `file` is the content found at `filePath`, `none` when the
stream cannot be opened.  The result is the object state when the call ends and the
way it ended: early return after the warning, exception out of `std::stoul`, or
normal completion after `normalizeVertices()`. -/
def loadOBJ (m : ViewerModel) (file : Option String) : ViewerModel × LoadStatus :=
  let m1 := setDefault m 0
  let m2 : ViewerModel :=
    { m1 with
      affine_transform :=
        { m1.affine_transform with
          rotateAngleX := 0.0
          rotateAngleY := 0.0
          rotateAngleZ := 0.0
          scaleFactor := 1.0
          translateX := 0.0
          projectionType := ProjectionType.Parallel }
      vertices := []
      facets := [] }
  match file with
  | none => (m2, LoadStatus.openFailed)
  | some content =>
    match scanLines (getlines content.toList) m2 with
    | (m3, some e) => (m3, LoadStatus.parseError e)
    | (m3, none) => (normalizeVertices m3, LoadStatus.loaded)

/-! ## Text input and style persistence (`viewer_model.cpp`, lines 420-485)

The Qt text functions these members call are modelled here as far as the members use
them: on the "C" locale, on decimal text, and with floats as exact rationals. -/

/-- The function `QChar::isSpace`: the ASCII whitespace of `isspace` and the Unicode
separators. -/
def QChar_isSpace (c : Char) : Bool :=
  isspace c || c.toNat = 0x85 || c.toNat = 0xa0 || c.toNat = 0x1680 ||
    (0x2000 ≤ c.toNat && c.toNat ≤ 0x200a) || c.toNat = 0x2028 || c.toNat = 0x2029 ||
    c.toNat = 0x202f || c.toNat = 0x205f || c.toNat = 0x3000

/-- The function `QString::trimmed`: whitespace removed from both ends. -/
def QString_trimmed (s : List Char) : List Char :=
  (s.dropWhile QChar_isSpace).rdropWhile QChar_isSpace

/-- The function `QString::toFloat` on decimal text: surrounding whitespace is ignored,
the whole of the rest has to be one number (sign, digits, point, digits, exponent),
and a failed conversion gives 0. -/
def QString_toFloat (s : List Char) : ℚ :=
  let f := takeFloatField (QString_trimmed s)
  if f.rest = [] then f.value.getD 0 else 0

/-- The text left when `QString::remove` has taken out every match of the regular
expression `[^0-9.]`: each character outside `0`-`9` and `.` is one match. -/
def removeNotDigitOrPoint : List Char → List Char
  | [] => []
  | c :: cs =>
    if ('0' ≤ c ∧ c ≤ '9') ∨ c = '.' then c :: removeNotDigitOrPoint cs
    else removeNotDigitOrPoint cs

/-- Member function `ViewerModel::makeFloat`. -/
def makeFloat (inputText : List Char) : ℚ :=
  let filteredText := removeNotDigitOrPoint inputText
  QString_toFloat filteredText

/-! ## Call sequences -/

/-- One call of a public mutator of `ViewerModel`, with its arguments. -/
inductive Mutator where
  | translateFigure (translateAct : translateAction) (translateValue : ℚ)
  | rotateAxis (rotateAct : rotateAction) (rotateValue : ℚ)
  | setProjection (prog_type : ProjectionType)
  | scaleFigure (scaleF : ScaleType) (scaleValue : ℚ)
  | setDefault (flag : Int)
  | setFacetWidth (scaleF : ScaleType)
  | setVerticeWidth (scaleF : ScaleType)
  | setVerticeType (verticeType : VerticeType)
  | setFacetColor (color : QColor)
  | setVerticeColor (color : QColor)
  | setBackGroundColor (color : QColor)
  | MouseButtonMove (delta : QPoint)
  | MouseWheelMove (delta : QPoint)
  | loadOBJ (file : Option String)
  | normalizeVertices

/-- The state after one mutator call (for `loadOBJ` whichever way the call ends). -/
def Mutator.apply (m : ViewerModel) : Mutator → ViewerModel
  | Mutator.translateFigure a v => s21.translateFigure m a v
  | Mutator.rotateAxis a v => s21.rotateAxis m a v
  | Mutator.setProjection p => s21.setProjection m p
  | Mutator.scaleFigure f v => s21.scaleFigure m f v
  | Mutator.setDefault flag => s21.setDefault m flag
  | Mutator.setFacetWidth f => s21.setFacetWidth m f
  | Mutator.setVerticeWidth f => s21.setVerticeWidth m f
  | Mutator.setVerticeType t => s21.setVerticeType m t
  | Mutator.setFacetColor c => s21.setFacetColor m c
  | Mutator.setVerticeColor c => s21.setVerticeColor m c
  | Mutator.setBackGroundColor c => s21.setBackGroundColor m c
  | Mutator.MouseButtonMove d => s21.MouseButtonMove m d
  | Mutator.MouseWheelMove d => s21.MouseWheelMove m d
  | Mutator.loadOBJ file => (s21.loadOBJ m file).1
  | Mutator.normalizeVertices => s21.normalizeVertices m

/-- The state after a finite sequence of mutator calls, first call first. -/
def runMutators (m : ViewerModel) (calls : List Mutator) : ViewerModel :=
  calls.foldl Mutator.apply m

/-! ## The specification's vocabulary -/

/-- The step a call applies: the magnitude, with exactly `0` replaced by the
operation's default step. -/
def stepOrDefault (dflt magnitude : ℚ) : ℚ :=
  if magnitude = 0 then dflt else magnitude

/-- The three coordinate axes. -/
inductive Axis where
  | X
  | Y
  | Z
  deriving DecidableEq, Repr

/-- The axis a translate action names. -/
def translateAction.axis : translateAction → Axis
  | translateAction.translateXPlus => Axis.X
  | translateAction.translateXMinus => Axis.X
  | translateAction.translateYPlus => Axis.Y
  | translateAction.translateYMinus => Axis.Y
  | translateAction.translateZPlus => Axis.Z
  | translateAction.translateZMinus => Axis.Z

/-- The sign a translate action names. -/
def translateAction.sign : translateAction → ℚ
  | translateAction.translateXPlus => 1
  | translateAction.translateXMinus => -1
  | translateAction.translateYPlus => 1
  | translateAction.translateYMinus => -1
  | translateAction.translateZPlus => 1
  | translateAction.translateZMinus => -1

/-- The signed step that one `translateFigure` call applies to the given axis. -/
def translateSignedStep (axis : Axis) (call : translateAction × ℚ) : ℚ :=
  if call.1.axis = axis then call.1.sign * stepOrDefault 0.5 call.2 else 0

/-- The axis a rotate action names. -/
def rotateAction.axis : rotateAction → Axis
  | rotateAction.rotateXPlus => Axis.X
  | rotateAction.rotateXMinus => Axis.X
  | rotateAction.rotateYPlus => Axis.Y
  | rotateAction.rotateYMinus => Axis.Y
  | rotateAction.rotateZPlus => Axis.Z
  | rotateAction.rotateZMinus => Axis.Z

/-- The sign a rotate action names. -/
def rotateAction.sign : rotateAction → ℚ
  | rotateAction.rotateXPlus => 1
  | rotateAction.rotateXMinus => -1
  | rotateAction.rotateYPlus => 1
  | rotateAction.rotateYMinus => -1
  | rotateAction.rotateZPlus => 1
  | rotateAction.rotateZMinus => -1

/-- The signed step that one `rotateAxis` call applies to the given axis. -/
def rotateSignedStep (axis : Axis) (call : rotateAction × ℚ) : ℚ :=
  if call.1.axis = axis then call.1.sign * stepOrDefault 15.0 call.2 else 0

/-- The state after a sequence of `translateFigure` calls, first call first. -/
def translateCalls (m : ViewerModel) (calls : List (translateAction × ℚ)) : ViewerModel :=
  calls.foldl (fun s call => translateFigure s call.1 call.2) m

/-- The state after a sequence of `rotateAxis` calls, first call first. -/
def rotateCalls (m : ViewerModel) (calls : List (rotateAction × ℚ)) : ViewerModel :=
  calls.foldl (fun s call => rotateAxis s call.1 call.2) m

/-- The value `x` saturated to the interval from `lo` to `hi`. -/
def clamp (x lo hi : ℚ) : ℚ :=
  max lo (min x hi)

/-- The value `lo` is the least value of the coordinate `c` over the mesh: the lower
face of the bounding box on that axis. -/
def IsBoxMin (c : QVector3D → ℚ) (vs : List QVector3D) (lo : ℚ) : Prop :=
  (∃ v ∈ vs, c v = lo) ∧ ∀ v ∈ vs, lo ≤ c v

/-- The value `hi` is the greatest value of the coordinate `c` over the mesh: the upper
face of the bounding box on that axis. -/
def IsBoxMax (c : QVector3D → ℚ) (vs : List QVector3D) (hi : ℚ) : Prop :=
  (∃ v ∈ vs, c v = hi) ∧ ∀ v ∈ vs, c v ≤ hi

/-- What the specification asks of a normalised mesh on one axis `c`, given the mesh
before normalisation and its largest extent: the bounding box of the result is centred
at 0 and lies inside [-1, 1]; the original extent on this axis is at most the largest;
and if it is the largest, the result spans exactly [-1, 1]. -/
def NormalizedOnAxis (c : QVector3D → ℚ) (original result : List QVector3D)
    (largest : ℚ) : Prop :=
  ∃ lo hi, IsBoxMin c result lo ∧ IsBoxMax c result hi ∧ lo + hi = 0 ∧ -1 ≤ lo ∧ hi ≤ 1 ∧
    ∀ lo0 hi0, IsBoxMin c original lo0 → IsBoxMax c original hi0 →
      hi0 - lo0 ≤ largest ∧ (hi0 - lo0 = largest → lo = -1 ∧ hi = 1)

/-- The vertex `k * v + t`: the vertex `v` scaled uniformly by `k` and moved by `t`. -/
def similarity (k : ℚ) (t : QVector3D) (v : QVector3D) : QVector3D :=
  { x := k * v.x + t.x, y := k * v.y + t.y, z := k * v.z + t.z }

/-- The lines of a text: the pieces between newline characters. -/
def textLines (text : List Char) : List (List Char) :=
  text.splitOn '\n'

/-- The whitespace-separated tokens of a piece of text. -/
def wsTokens (text : List Char) : List (List Char) :=
  (text.splitOnP isspace).filter (fun t => !t.isEmpty)

/-- The numeric part of a face token: the part before the first `/`, or the whole
token if it has none. -/
def numericHead (token : List Char) : List Char :=
  (token.splitOn '/').headD []

/-- A face token whose numeric part is a decimal numeral for a positive 1-based
index that fits the 32-bit index type after conversion to 0-based. -/
def isPositiveIndex (token : List Char) : Bool :=
  !(numericHead token).isEmpty && (numericHead token).all Char.isDigit &&
    decide (1 ≤ digitsValue (numericHead token)) &&
    decide (digitsValue (numericHead token) ≤ 2 ^ 32)

/-- A piece of text that does not start a decimal integer: after one optional sign its
first character is not a decimal digit, or there is none. -/
def lacksLeadingDigit (s : List Char) : Bool :=
  match s with
  | [] => true
  | c :: rest =>
    if c = '-' ∨ c = '+' then !((rest.head?.map Char.isDigit).getD false)
    else !c.isDigit

/-- A piece of text whose first token cannot start a decimal number: after leading
whitespace it is empty, or its first character is not a digit, a sign or a point. -/
def lacksNumberStart (s : List Char) : Bool :=
  match s.dropWhile isspace with
  | [] => true
  | c :: _ => !(c.isDigit || c = '-' || c = '+' || c = '.')

/-- A line whose first two characters are `v` and a blank. -/
def isVertexLine (line : List Char) : Bool :=
  line.take 2 = ['v', ' ']

/-- A line whose first two characters are `f` and a blank. -/
def isFaceLine (line : List Char) : Bool :=
  line.take 2 = ['f', ' ']

/-- A line the loader interprets: a vertex line or a face line. -/
def isRecordLine (line : List Char) : Bool :=
  isVertexLine line || isFaceLine line

/-- The vertex records of a text, in file order, as the stream extraction reads them
and before normalisation. -/
def specVertices (text : List Char) : List QVector3D :=
  ((textLines text).filter isVertexLine).map (fun line => readVertex (line.drop 2))

/-- The index list the specification describes for a text: over the face lines in file
order, every token's numeric part read as a 1-based integer and decremented by one. -/
def specFaceIndices (text : List Char) : List Nat :=
  ((textLines text).filter isFaceLine).flatMap
    (fun line => (wsTokens (line.drop 2)).map (fun t => digitsValue (numericHead t) - 1))

/-! ## Transform state: translation, rotation, scaling -/

/-- One `translateFigure` call adds its signed step to each axis offset. -/
theorem translateFigure_step (m : ViewerModel) (call : translateAction × ℚ) :
    (translateFigure m call.1 call.2).affine_transform.translateX =
        m.affine_transform.translateX + translateSignedStep Axis.X call ∧
      (translateFigure m call.1 call.2).affine_transform.translateY =
        m.affine_transform.translateY + translateSignedStep Axis.Y call ∧
      (translateFigure m call.1 call.2).affine_transform.translateZ =
        m.affine_transform.translateZ + translateSignedStep Axis.Z call := by
  obtain ⟨act, v⟩ := call
  cases act <;>
    simp [translateFigure, translateSignedStep, translateAction.axis, translateAction.sign,
      stepOrDefault, sub_eq_add_neg] <;>
    split_ifs <;> rfl

/-- C1: for every starting state and every finite sequence of `translateFigure` calls,
each of translateX, translateY, translateZ ends at its starting value plus the sum of
the signed steps applied to that axis, a magnitude of exactly 0 counting as 0.5; from
a fresh state `translateXPlus` with 0 gives 0.5 and a following `translateXMinus`
with 0.1 gives 0.4. -/
theorem translateFigure_sequence_is_sum (m : ViewerModel) (md : ModelDefinition)
    (calls : List (translateAction × ℚ)) :
    ((translateCalls m calls).affine_transform.translateX =
        m.affine_transform.translateX + (calls.map (translateSignedStep Axis.X)).sum ∧
      (translateCalls m calls).affine_transform.translateY =
        m.affine_transform.translateY + (calls.map (translateSignedStep Axis.Y)).sum ∧
      (translateCalls m calls).affine_transform.translateZ =
        m.affine_transform.translateZ + (calls.map (translateSignedStep Axis.Z)).sum) ∧
    (translateFigure (freshModel md) translateAction.translateXPlus 0).affine_transform.translateX
        = 0.5 ∧
    (translateFigure (translateFigure (freshModel md) translateAction.translateXPlus 0)
        translateAction.translateXMinus 0.1).affine_transform.translateX = 0.4 := by
  refine ⟨?_, ?_, ?_⟩
  · induction calls generalizing m with
    | nil => simp [translateCalls]
    | cons call rest ih =>
      have hstep := translateFigure_step m call
      have hrest := ih (translateFigure m call.1 call.2)
      simp only [translateCalls, List.foldl_cons, List.map_cons, List.sum_cons] at hrest ⊢
      obtain ⟨hx, hy, hz⟩ := hrest
      obtain ⟨sx, sy, sz⟩ := hstep
      refine ⟨?_, ?_, ?_⟩
      · rw [hx, sx]; ring
      · rw [hy, sy]; ring
      · rw [hz, sz]; ring
  · norm_num [translateFigure, freshModel]
  · norm_num [translateFigure, freshModel]

/-- One `rotateAxis` call adds its signed step to each axis angle. -/
theorem rotateAxis_step (m : ViewerModel) (call : rotateAction × ℚ) :
    (rotateAxis m call.1 call.2).affine_transform.rotateAngleX =
        m.affine_transform.rotateAngleX + rotateSignedStep Axis.X call ∧
      (rotateAxis m call.1 call.2).affine_transform.rotateAngleY =
        m.affine_transform.rotateAngleY + rotateSignedStep Axis.Y call ∧
      (rotateAxis m call.1 call.2).affine_transform.rotateAngleZ =
        m.affine_transform.rotateAngleZ + rotateSignedStep Axis.Z call := by
  obtain ⟨act, v⟩ := call
  cases act <;>
    simp [rotateAxis, rotateSignedStep, rotateAction.axis, rotateAction.sign,
      stepOrDefault, sub_eq_add_neg] <;>
    split_ifs <;> rfl

/-- C2: for every starting state and every finite sequence of `rotateAxis` calls, each
of rotateAngleX, rotateAngleY, rotateAngleZ ends at its starting angle plus the sum of
the signed steps applied to that axis, a magnitude of exactly 0 counting as 15.0; no
wrapping to [0,360) takes place: twenty-five default steps reach 375 and one default
step down from 0 reaches -15. -/
theorem rotateAxis_sequence_is_sum (m : ViewerModel) (md : ModelDefinition)
    (calls : List (rotateAction × ℚ)) :
    ((rotateCalls m calls).affine_transform.rotateAngleX =
        m.affine_transform.rotateAngleX + (calls.map (rotateSignedStep Axis.X)).sum ∧
      (rotateCalls m calls).affine_transform.rotateAngleY =
        m.affine_transform.rotateAngleY + (calls.map (rotateSignedStep Axis.Y)).sum ∧
      (rotateCalls m calls).affine_transform.rotateAngleZ =
        m.affine_transform.rotateAngleZ + (calls.map (rotateSignedStep Axis.Z)).sum) ∧
    (rotateCalls (freshModel md)
        (List.replicate 25 (rotateAction.rotateXPlus, 0))).affine_transform.rotateAngleX = 375 ∧
    (rotateAxis (freshModel md) rotateAction.rotateZMinus 0).affine_transform.rotateAngleZ
        = -15 := by
  refine ⟨?_, ?_, ?_⟩
  · induction calls generalizing m with
    | nil => simp [rotateCalls]
    | cons call rest ih =>
      have hstep := rotateAxis_step m call
      have hrest := ih (rotateAxis m call.1 call.2)
      simp only [rotateCalls, List.foldl_cons, List.map_cons, List.sum_cons] at hrest ⊢
      obtain ⟨hx, hy, hz⟩ := hrest
      obtain ⟨sx, sy, sz⟩ := hstep
      refine ⟨?_, ?_, ?_⟩
      · rw [hx, sx]; ring
      · rw [hy, sy]; ring
      · rw [hz, sz]; ring
  · norm_num [rotateCalls, rotateAxis, freshModel, List.replicate]
  · norm_num [rotateAxis, freshModel]

/-- The two saturating `if`s of `scaleFigure`, taken in the order of the source,
compute the clamp. -/
theorem saturate_eq_clamp (x lo hi : ℚ) (h : lo ≤ hi) :
    (if (if x < lo then lo else x) > hi then hi else (if x < lo then lo else x))
      = clamp x lo hi := by
  unfold clamp
  by_cases h1 : x < lo
  · have h2 : ¬ lo > hi := not_lt.mpr h
    rw [if_pos h1, if_neg h2, min_eq_left (le_trans h1.le h), max_eq_left h1.le]
  · rw [if_neg h1]
    have h1 := not_lt.mp h1
    by_cases h2 : x > hi
    · rw [if_pos h2, min_eq_right h2.le, max_eq_right h]
    · rw [if_neg h2, min_eq_left (not_lt.mp h2), max_eq_right h1]

/-- C3: in Perspective mode, for every state and magnitude, `scaleFigure(scalePlus, m)`
sets fov to the old fov minus the step clamped to [10, 120] and
`scaleFigure(scaleMinus, m)` to the old fov plus the step clamped to [10, 120], the
step being 3.0 for magnitude 0 and the magnitude otherwise. -/
theorem scaleFigure_perspective_fov (m : ViewerModel) (v : ℚ)
    (h : m.affine_transform.projectionType = ProjectionType.Perspective) :
    (scaleFigure m ScaleType.scalePlus v).affine_transform.fov =
        clamp (m.affine_transform.fov - stepOrDefault 3.0 v) 10 120 ∧
      (scaleFigure m ScaleType.scaleMinus v).affine_transform.fov =
        clamp (m.affine_transform.fov + stepOrDefault 3.0 v) 10 120 := by
  constructor
  · rw [← saturate_eq_clamp _ 10 120 (by norm_num)]
    simp [scaleFigure, h, stepOrDefault]
    norm_num
  · rw [← saturate_eq_clamp _ 10 120 (by norm_num)]
    simp [scaleFigure, h, stepOrDefault]
    norm_num

/-- C3 at a Perspective state with fov 45: plus with 0 gives 42, minus with 100
saturates at 120. -/
theorem scaleFigure_perspective_fov_witness :
    ({ affine_transform := { projectionType := ProjectionType.Perspective } } :
          ViewerModel).affine_transform.projectionType = ProjectionType.Perspective ∧
      (scaleFigure { affine_transform := { projectionType := ProjectionType.Perspective } }
          ScaleType.scalePlus 0).affine_transform.fov = 42 ∧
      (scaleFigure { affine_transform := { projectionType := ProjectionType.Perspective } }
          ScaleType.scaleMinus 100).affine_transform.fov = 120 := by
  have key := scaleFigure_perspective_fov
    { affine_transform := { projectionType := ProjectionType.Perspective } }
  refine ⟨rfl, ?_, ?_⟩
  · rw [(key 0 rfl).1]; norm_num [clamp, stepOrDefault]
  · rw [(key 100 rfl).2]; norm_num [clamp, stepOrDefault]

/-- C4: in Parallel mode, for every state and magnitude, `scaleFigure(scalePlus, m)`
sets scaleFactor to the old value plus the step clamped to [0.1, 10] and
`scaleFigure(scaleMinus, m)` to the old value minus the step clamped to [0.1, 10],
the step being 0.1 for magnitude 0 and the magnitude otherwise; from 1.0, plus with 0
then plus with 2 gives 3.1, and minus with 0 then minus with 2 returns to 1. -/
theorem scaleFigure_parallel_scaleFactor (m : ViewerModel) (v : ℚ)
    (h : m.affine_transform.projectionType = ProjectionType.Parallel) :
    ((scaleFigure m ScaleType.scalePlus v).affine_transform.scaleFactor =
        clamp (m.affine_transform.scaleFactor + stepOrDefault 0.1 v) 0.1 10 ∧
      (scaleFigure m ScaleType.scaleMinus v).affine_transform.scaleFactor =
        clamp (m.affine_transform.scaleFactor - stepOrDefault 0.1 v) 0.1 10) ∧
    (m.affine_transform.scaleFactor = 1.0 →
      (scaleFigure (scaleFigure m ScaleType.scalePlus 0)
          ScaleType.scalePlus 2).affine_transform.scaleFactor = 3.1 ∧
      (scaleFigure (scaleFigure (scaleFigure (scaleFigure m ScaleType.scalePlus 0)
          ScaleType.scalePlus 2) ScaleType.scaleMinus 0)
          ScaleType.scaleMinus 2).affine_transform.scaleFactor = 1) := by
  refine ⟨⟨?_, ?_⟩, ?_⟩
  · rw [← saturate_eq_clamp _ 0.1 10 (by norm_num)]
    simp [scaleFigure, h, stepOrDefault]
    norm_num
  · rw [← saturate_eq_clamp _ 0.1 10 (by norm_num)]
    simp [scaleFigure, h, stepOrDefault]
    norm_num
  · intro h1
    have h1 : m.affine_transform.scaleFactor = 1 := by rw [h1]; norm_num
    constructor
    · simp [scaleFigure, h, h1]; norm_num
    · simp [scaleFigure, h, h1]; norm_num

/-- C4 at the fresh model (Parallel, scaleFactor 1.0): plus with 0 then plus with 2
gives 3.1, and minus with 5 saturates. -/
theorem scaleFigure_parallel_scaleFactor_witness :
    (freshModel {}).affine_transform.projectionType = ProjectionType.Parallel ∧
      (freshModel {}).affine_transform.scaleFactor = 1.0 ∧
      (scaleFigure (scaleFigure (freshModel {}) ScaleType.scalePlus 0)
          ScaleType.scalePlus 2).affine_transform.scaleFactor = 3.1 ∧
      (scaleFigure (freshModel {}) ScaleType.scaleMinus 5).affine_transform.scaleFactor
        = clamp (1 - 5) 0.1 10 := by
  have key := scaleFigure_parallel_scaleFactor (freshModel {})
  have h1 : (freshModel {}).affine_transform.scaleFactor = 1.0 := by norm_num [freshModel]
  refine ⟨rfl, h1, ((key 0 rfl).2 h1).1, ?_⟩
  rw [((key 5 rfl).1).2]; norm_num [freshModel, stepOrDefault]

/-! ## Loading: what the scan leaves alone -/

/-- One line of the scan writes neither the transform nor the style. -/
theorem scanLine_keeps_transform (line : List Char) (m : ViewerModel) :
    (scanLine line m).1.affine_transform = m.affine_transform ∧
      (scanLine line m).1.modelDefinition = m.modelDefinition := by
  unfold scanLine
  split_ifs <;> exact ⟨rfl, rfl⟩

/-- The line loop writes neither the transform nor the style. -/
theorem scanLines_keeps_transform (lines : List (List Char)) (m : ViewerModel) :
    (scanLines lines m).1.affine_transform = m.affine_transform ∧
      (scanLines lines m).1.modelDefinition = m.modelDefinition := by
  induction lines generalizing m with
  | nil => exact ⟨rfl, rfl⟩
  | cons line rest ih =>
    have h1 := scanLine_keeps_transform line m
    unfold scanLines
    rcases hs : scanLine line m with ⟨m1, _ | e⟩
    · rw [hs] at h1
      have h2 := ih m1
      exact ⟨h2.1.trans h1.1, h2.2.trans h1.2⟩
    · rw [hs] at h1
      exact h1

/-- Normalisation writes the vertex list only. -/
theorem normalizeVertices_keeps_rest (m : ViewerModel) :
    (normalizeVertices m).affine_transform = m.affine_transform ∧
      (normalizeVertices m).modelDefinition = m.modelDefinition ∧
      (normalizeVertices m).facets = m.facets := by
  unfold normalizeVertices
  split <;> exact ⟨rfl, rfl, rfl⟩

/-- The state in which `loadOBJ` opens the file: empty mesh, default transform, style
as before the call. -/
theorem loadOBJ_none (m : ViewerModel) :
    loadOBJ m none =
      ({ vertices := [], facets := [], affine_transform := {},
         modelDefinition := m.modelDefinition }, LoadStatus.openFailed) := by
  simp [loadOBJ, setDefault]
  norm_num

/-- With a file that opens, `loadOBJ` scans its lines from the cleared state and
normalises if no exception ended the scan. -/
theorem loadOBJ_some (m : ViewerModel) (content : String) :
    loadOBJ m (some content) =
      match scanLines (getlines content.toList)
          { vertices := [], facets := [], affine_transform := {},
            modelDefinition := m.modelDefinition } with
      | (m3, some e) => (m3, LoadStatus.parseError e)
      | (m3, none) => (normalizeVertices m3, LoadStatus.loaded) := by
  have h := loadOBJ_none m
  simp only [loadOBJ, Prod.mk.injEq, and_true] at h
  simp only [loadOBJ, h]

/-- Whatever the file and however the call ends, `loadOBJ` leaves the transform at
its defaults and the style as it was. -/
theorem loadOBJ_transform_and_style (m : ViewerModel) (file : Option String) :
    (loadOBJ m file).1.affine_transform = {} ∧
      (loadOBJ m file).1.modelDefinition = m.modelDefinition := by
  cases file with
  | none => rw [loadOBJ_none]; exact ⟨rfl, rfl⟩
  | some content =>
    rw [loadOBJ_some]
    have h := scanLines_keeps_transform (getlines content.toList)
      { vertices := [], facets := [], affine_transform := {},
        modelDefinition := m.modelDefinition }
    rcases hs : scanLines (getlines content.toList)
      { vertices := [], facets := [], affine_transform := {},
        modelDefinition := m.modelDefinition } with ⟨m3, _ | e⟩
    · rw [hs] at h
      have hn := normalizeVertices_keeps_rest m3
      exact ⟨hn.1.trans h.1, hn.2.1.trans h.2⟩
    · rw [hs] at h
      exact h

/-! ## Scale and field-of-view bounds -/

/-- The saturation of `scaleFigure` lands in the interval, whatever was stepped. -/
theorem saturate_in_range (x lo hi : ℚ) (h : lo ≤ hi) :
    lo ≤ (if (if x < lo then lo else x) > hi then hi else (if x < lo then lo else x)) ∧
      (if (if x < lo then lo else x) > hi then hi else (if x < lo then lo else x)) ≤ hi := by
  by_cases h1 : x < lo
  · have h2 : ¬ lo > hi := not_lt.mpr h
    simp only [if_pos h1, if_neg h2]
    exact ⟨le_refl _, h⟩
  · simp only [if_neg h1]
    by_cases h2 : x > hi
    · simp only [if_pos h2]
      exact ⟨h, le_refl _⟩
    · simp only [if_neg h2]
      exact ⟨not_lt.mp h1, not_lt.mp h2⟩

/-- The function `scaleFigure` keeps both saturated fields inside their intervals. -/
theorem scaleFigure_keeps_bounds (m : ViewerModel) (f : ScaleType) (v : ℚ)
    (h : 0.1 ≤ m.affine_transform.scaleFactor ∧ m.affine_transform.scaleFactor ≤ 10.0 ∧
      10.0 ≤ m.affine_transform.fov ∧ m.affine_transform.fov ≤ 120.0) :
    0.1 ≤ (scaleFigure m f v).affine_transform.scaleFactor ∧
      (scaleFigure m f v).affine_transform.scaleFactor ≤ 10.0 ∧
      10.0 ≤ (scaleFigure m f v).affine_transform.fov ∧
      (scaleFigure m f v).affine_transform.fov ≤ 120.0 := by
  obtain ⟨h1, h2, h3, h4⟩ := h
  unfold scaleFigure
  by_cases hp : m.affine_transform.projectionType = ProjectionType.Perspective
  · simp only [if_pos hp]
    exact ⟨h1, h2, saturate_in_range _ 10.0 120.0 (by norm_num)⟩
  · simp only [if_neg hp]
    have hs := saturate_in_range
      (if f = ScaleType.scalePlus then
        m.affine_transform.scaleFactor + (if v = 0 then 0.1 else v)
       else m.affine_transform.scaleFactor - (if v = 0 then 0.1 else v)) 0.1 10.0 (by norm_num)
    exact ⟨hs.1, hs.2, h3, h4⟩

/-- Every mutator call keeps scaleFactor in [0.1, 10] and fov in [10, 120]. -/
theorem Mutator_apply_keeps_bounds (m : ViewerModel) (call : Mutator)
    (h : 0.1 ≤ m.affine_transform.scaleFactor ∧ m.affine_transform.scaleFactor ≤ 10.0 ∧
      10.0 ≤ m.affine_transform.fov ∧ m.affine_transform.fov ≤ 120.0) :
    0.1 ≤ (Mutator.apply m call).affine_transform.scaleFactor ∧
      (Mutator.apply m call).affine_transform.scaleFactor ≤ 10.0 ∧
      10.0 ≤ (Mutator.apply m call).affine_transform.fov ∧
      (Mutator.apply m call).affine_transform.fov ≤ 120.0 := by
  cases call with
  | translateFigure a v => cases a <;> exact h
  | rotateAxis a v => cases a <;> exact h
  | setProjection p =>
    simp only [Mutator.apply, setProjection]
    split_ifs <;> exact h
  | scaleFigure f v => exact scaleFigure_keeps_bounds m f v h
  | setDefault flag =>
    simp only [Mutator.apply, setDefault]
    split_ifs <;> norm_num
  | setFacetWidth f =>
    simp only [Mutator.apply, setFacetWidth]
    split_ifs <;> exact h
  | setVerticeWidth f =>
    simp only [Mutator.apply, setVerticeWidth]
    split_ifs <;> exact h
  | setVerticeType t => exact h
  | setFacetColor c => exact h
  | setVerticeColor c => exact h
  | setBackGroundColor c => exact h
  | MouseButtonMove d => exact h
  | MouseWheelMove d => exact h
  | loadOBJ file =>
    simp only [Mutator.apply, (loadOBJ_transform_and_style m file).1]
    norm_num
  | normalizeVertices =>
    simp only [Mutator.apply, (normalizeVertices_keeps_rest m).1]
    exact h

/-- A sequence of mutator calls keeps scaleFactor in [0.1, 10] and fov in [10, 120]. -/
theorem runMutators_keeps_bounds (calls : List Mutator) (m : ViewerModel)
    (h : 0.1 ≤ m.affine_transform.scaleFactor ∧ m.affine_transform.scaleFactor ≤ 10.0 ∧
      10.0 ≤ m.affine_transform.fov ∧ m.affine_transform.fov ≤ 120.0) :
    0.1 ≤ (runMutators m calls).affine_transform.scaleFactor ∧
      (runMutators m calls).affine_transform.scaleFactor ≤ 10.0 ∧
      10.0 ≤ (runMutators m calls).affine_transform.fov ∧
      (runMutators m calls).affine_transform.fov ≤ 120.0 := by
  induction calls generalizing m with
  | nil => exact h
  | cons call rest ih => exact ih (Mutator.apply m call) (Mutator_apply_keeps_bounds m call h)

/-- C5: in every state reached from a freshly constructed model by a finite sequence of
mutator calls (translateFigure, rotateAxis, setProjection, scaleFigure with any
direction and magnitude, setDefault, the mouse drags, loadOBJ, and the style mutators
besides), scaleFactor is in [0.1, 10.0] and fov is in [10.0, 120.0]; in particular
repeating scale(+,0) in Parallel never exceeds 10.0 and repeating scale(+,0) in
Perspective never pushes fov below 10.0. -/
theorem reachable_scale_and_fov_bounded (md : ModelDefinition) (calls : List Mutator)
    (n : Nat) :
    (0.1 ≤ (runMutators (freshModel md) calls).affine_transform.scaleFactor ∧
      (runMutators (freshModel md) calls).affine_transform.scaleFactor ≤ 10.0 ∧
      10.0 ≤ (runMutators (freshModel md) calls).affine_transform.fov ∧
      (runMutators (freshModel md) calls).affine_transform.fov ≤ 120.0) ∧
    (runMutators (freshModel md)
      (List.replicate n (Mutator.scaleFigure ScaleType.scalePlus 0))).affine_transform.scaleFactor
        ≤ 10.0 ∧
    10.0 ≤ (runMutators (freshModel md)
      (Mutator.setProjection ProjectionType.Perspective ::
        List.replicate n (Mutator.scaleFigure ScaleType.scalePlus 0))).affine_transform.fov := by
  have h0 : 0.1 ≤ (freshModel md).affine_transform.scaleFactor ∧
      (freshModel md).affine_transform.scaleFactor ≤ 10.0 ∧
      10.0 ≤ (freshModel md).affine_transform.fov ∧
      (freshModel md).affine_transform.fov ≤ 120.0 := by
    norm_num [freshModel]
  exact ⟨runMutators_keeps_bounds calls _ h0, (runMutators_keeps_bounds _ _ h0).2.1,
    (runMutators_keeps_bounds _ _ h0).2.2.1⟩

/-- C6: `scaleFigure` changes only the field of the current projection mode: for every
state, direction and magnitude, in Perspective mode scaleFactor is unchanged, in
Parallel mode fov is unchanged, and in both modes rotation, translation, projection
type, mesh and style are unchanged; four perspective scalings from a fresh model leave
scaleFactor at 1. -/
theorem scaleFigure_frame (m : ViewerModel) (f : ScaleType) (v : ℚ) (md : ModelDefinition) :
    (m.affine_transform.projectionType = ProjectionType.Perspective →
      (scaleFigure m f v).affine_transform.scaleFactor = m.affine_transform.scaleFactor) ∧
    (m.affine_transform.projectionType = ProjectionType.Parallel →
      (scaleFigure m f v).affine_transform.fov = m.affine_transform.fov) ∧
    ((scaleFigure m f v).affine_transform.rotateAngleX = m.affine_transform.rotateAngleX ∧
      (scaleFigure m f v).affine_transform.rotateAngleY = m.affine_transform.rotateAngleY ∧
      (scaleFigure m f v).affine_transform.rotateAngleZ = m.affine_transform.rotateAngleZ ∧
      (scaleFigure m f v).affine_transform.translateX = m.affine_transform.translateX ∧
      (scaleFigure m f v).affine_transform.translateY = m.affine_transform.translateY ∧
      (scaleFigure m f v).affine_transform.translateZ = m.affine_transform.translateZ ∧
      (scaleFigure m f v).affine_transform.projectionType = m.affine_transform.projectionType ∧
      (scaleFigure m f v).vertices = m.vertices ∧
      (scaleFigure m f v).facets = m.facets ∧
      (scaleFigure m f v).modelDefinition = m.modelDefinition) ∧
    (runMutators (freshModel md)
      [Mutator.setProjection ProjectionType.Perspective,
       Mutator.scaleFigure ScaleType.scalePlus 0, Mutator.scaleFigure ScaleType.scalePlus 2,
       Mutator.scaleFigure ScaleType.scaleMinus 0,
       Mutator.scaleFigure ScaleType.scaleMinus 2]).affine_transform.scaleFactor = 1 := by
  refine ⟨?_, ?_, ?_, ?_⟩
  · intro h
    simp [scaleFigure, h]
  · intro h
    simp [scaleFigure, h]
  · unfold scaleFigure
    by_cases hp : m.affine_transform.projectionType = ProjectionType.Perspective
    · rw [if_pos hp]
      exact ⟨rfl, rfl, rfl, rfl, rfl, rfl, rfl, rfl, rfl, rfl⟩
    · rw [if_neg hp]
      exact ⟨rfl, rfl, rfl, rfl, rfl, rfl, rfl, rfl, rfl, rfl⟩
  · simp [runMutators, Mutator.apply, setProjection, scaleFigure, freshModel]

/-- C6 at a Perspective state and at a Parallel state, each scaled once. -/
theorem scaleFigure_frame_witness :
    (scaleFigure { affine_transform := { projectionType := ProjectionType.Perspective } }
        ScaleType.scalePlus 7).affine_transform.scaleFactor = 1 ∧
      (scaleFigure (freshModel {}) ScaleType.scaleMinus 7).affine_transform.fov = 45 := by
  have h1 := (scaleFigure_frame
    { affine_transform := { projectionType := ProjectionType.Perspective } }
    ScaleType.scalePlus 7 {}).1 rfl
  have h2 := (scaleFigure_frame (freshModel {}) ScaleType.scaleMinus 7 {}).2.1 rfl
  exact ⟨h1, h2⟩

/-! ## Loading: reset and failed open -/

/-- C7, as stated, fails: with one vertex, one index and translateX = 1 before the call,
a `loadOBJ` whose file cannot be opened ends with an empty vertex list, an empty index
list and translateX = 0. -/
theorem loadOBJ_open_failure_not_preserving :
    (loadOBJ { vertices := [{ x := 1, y := 2, z := 3 }], facets := [0],
               affine_transform := { translateX := 1 } } none).1.vertices
        ≠ [{ x := 1, y := 2, z := 3 }] ∧
      (loadOBJ { vertices := [{ x := 1, y := 2, z := 3 }], facets := [0],
                 affine_transform := { translateX := 1 } } none).1.facets ≠ [0] ∧
      (loadOBJ { vertices := [{ x := 1, y := 2, z := 3 }], facets := [0],
                 affine_transform := { translateX := 1 } } none).1.affine_transform
        ≠ { translateX := 1 } := by
  rw [loadOBJ_none]
  refine ⟨by simp, by simp, ?_⟩
  intro h
  have hx := congrArg AffineTransform.translateX h
  norm_num at hx

/-- C7, amended: if the geometry file cannot be opened, `loadOBJ` has already cleared
the mesh and reset the transform: the vertex list and the index list are empty, the
TransformState is at its defaults, the StyleState is as before the call, and the call
reports the failed open. -/
theorem loadOBJ_open_failure_clears (m : ViewerModel) :
    (loadOBJ m none).1.vertices = [] ∧
      (loadOBJ m none).1.facets = [] ∧
      (loadOBJ m none).1.affine_transform = {} ∧
      (loadOBJ m none).1.modelDefinition = m.modelDefinition ∧
      (loadOBJ m none).2 = LoadStatus.openFailed := by
  rw [loadOBJ_none]
  exact ⟨rfl, rfl, rfl, rfl, rfl⟩

/-- C8, as stated, fails: with translateY = 1 and translateZ = 2 before the call, loading
a two-vertex file ends with translateY = 0 and translateZ = 0. -/
theorem loadOBJ_resets_translateY_translateZ :
    (loadOBJ { affine_transform := { translateY := 1, translateZ := 2 } }
        (some "v 0 0 0\nv 2 0 0\n")).1.affine_transform.translateY = 0 ∧
      (loadOBJ { affine_transform := { translateY := 1, translateZ := 2 } }
        (some "v 0 0 0\nv 2 0 0\n")).1.affine_transform.translateZ = 0 ∧
      ({ translateY := 1, translateZ := 2 } : AffineTransform).translateY ≠ 0 ∧
      ({ translateY := 1, translateZ := 2 } : AffineTransform).translateZ ≠ 0 ∧
      (loadOBJ { affine_transform := { translateY := 1, translateZ := 2 } }
        (some "v 0 0 0\nv 2 0 0\n")).2 = LoadStatus.loaded := by
  refine ⟨?_, ?_, by norm_num, by norm_num, by decide⟩
  · rw [(loadOBJ_transform_and_style _ _).1]
  · rw [(loadOBJ_transform_and_style _ _).1]

/-- C8, amended: a geometry load resets the whole TransformState to its defaults, for
every prior state and every file: rotation on all three axes, scaleFactor, translateX
and projection type, and translateY, translateZ (to 0) and fov (to 45) as well. -/
theorem loadOBJ_resets_whole_transform (m : ViewerModel) (file : Option String) :
    (loadOBJ m file).1.affine_transform.projectionType = ProjectionType.Parallel ∧
      (loadOBJ m file).1.affine_transform.rotateAngleX = 0 ∧
      (loadOBJ m file).1.affine_transform.rotateAngleY = 0 ∧
      (loadOBJ m file).1.affine_transform.rotateAngleZ = 0 ∧
      (loadOBJ m file).1.affine_transform.scaleFactor = 1 ∧
      (loadOBJ m file).1.affine_transform.translateX = 0 ∧
      (loadOBJ m file).1.affine_transform.translateY = 0 ∧
      (loadOBJ m file).1.affine_transform.translateZ = 0 ∧
      (loadOBJ m file).1.affine_transform.fov = 45 := by
  rw [(loadOBJ_transform_and_style m file).1]
  exact ⟨rfl, rfl, rfl, rfl, rfl, rfl, rfl, rfl, rfl⟩

/-! ## Text scanning against the specification's vocabulary -/

/-- The part of a token before its first `/` is what `substr(0, find('/'))` takes. -/
theorem numericHead_eq_takeWhile (token : List Char) :
    numericHead token = token.takeWhile (fun c => c ≠ '/') := by
  unfold numericHead List.splitOn
  induction token with
  | nil => simp [List.splitOnP_nil]
  | cons c cs ih =>
    rw [List.splitOnP_cons]
    by_cases h : c = '/'
    · simp [h]
    · have hne := List.splitOnP_ne_nil (fun x => x == '/') cs
      rcases hs : List.splitOnP (fun x => x == '/') cs with _ | ⟨t, ts⟩
      · exact absurd hs hne
      · rw [hs] at ih
        simp [h, List.modifyHead, List.takeWhile_cons] at ih ⊢
        exact ih

/-- The token loop on an exhausted stream. -/
theorem tokens_nil : tokens [] = [] := by
  rw [tokens.eq_def]

/-- Leading whitespace is skipped. -/
theorem tokens_cons_space (c : Char) (cs : List Char) (h : isspace c = true) :
    tokens (c :: cs) = tokens cs := by
  rw [tokens.eq_def]
  simp only [h, if_true]

/-- A last character that is not whitespace is a token. -/
theorem tokens_single (c : Char) (h : ¬ isspace c = true) : tokens [c] = [[c]] := by
  rw [tokens.eq_def]
  simp only [h]
  rfl

/-- Whitespace ends the token. -/
theorem tokens_cons_before_space (c d : Char) (ds : List Char) (hc : ¬ isspace c = true)
    (hd : isspace d = true) : tokens (c :: d :: ds) = [c] :: tokens (d :: ds) := by
  rw [tokens.eq_def]
  simp only [hc, hd, if_true]
  rfl

/-- A character that is not whitespace continues the token. -/
theorem tokens_cons_before_char (c d : Char) (ds : List Char) (hc : ¬ isspace c = true)
    (hd : ¬ isspace d = true) (t : List Char) (ts : List (List Char))
    (h : tokens (d :: ds) = t :: ts) : tokens (c :: d :: ds) = (c :: t) :: ts := by
  rw [tokens.eq_def]
  simp only [hc, hd, h]
  rfl

/-- The token loop delivers the whitespace-separated pieces of the text. -/
theorem tokens_eq_wsTokens (text : List Char) : tokens text = wsTokens text := by
  unfold wsTokens
  induction text with
  | nil => simp [tokens_nil, List.splitOnP_nil]
  | cons c cs ih =>
    by_cases hc : isspace c = true
    · rw [List.splitOnP_cons, tokens_cons_space c cs hc]
      simp [hc, ih]
    · cases cs with
      | nil =>
        rw [List.splitOnP_cons, tokens_single c hc]
        simp [hc, List.splitOnP_nil, List.modifyHead]
      | cons d ds =>
        rw [List.splitOnP_cons]
        rw [List.splitOnP_cons] at ih ⊢
        by_cases hd : isspace d = true
        · rw [tokens_cons_before_space c d ds hc hd]
          simp only [hd, if_true] at ih ⊢
          simp [hc, List.modifyHead, ih]
        · obtain ⟨u, us, hs⟩ : ∃ u us, List.splitOnP isspace ds = u :: us := by
            rcases hs : List.splitOnP isspace ds with _ | ⟨u, us⟩
            · exact absurd hs (List.splitOnP_ne_nil isspace ds)
            · exact ⟨u, us, rfl⟩
          rw [hs] at ih ⊢
          simp only [hd] at ih ⊢
          have ih2 : tokens (d :: ds) = (d :: u) :: List.filter (fun t => !t.isEmpty) us := by
            rw [ih]; simp [List.modifyHead]
          rw [tokens_cons_before_char c d ds hc hd _ _ ih2]
          simp [hc, List.modifyHead]

/-- The line loop on an exhausted stream. -/
theorem getlines_nil : getlines [] = [] := by
  rw [getlines.eq_def]

/-- A newline ends the current line. -/
theorem getlines_cons_newline (cs : List Char) : getlines ('\n' :: cs) = [] :: getlines cs := by
  rw [getlines.eq_def]
  simp

/-- Any other character starts the last line when nothing follows it. -/
theorem getlines_cons_last (c : Char) (cs : List Char) (h : c ≠ '\n')
    (hg : getlines cs = []) : getlines (c :: cs) = [[c]] := by
  rw [getlines.eq_def]
  simp only [h, if_false, hg]

/-- Any other character is put in front of the line that follows. -/
theorem getlines_cons_char (c : Char) (cs : List Char) (h : c ≠ '\n') (l : List Char)
    (ls : List (List Char)) (hg : getlines cs = l :: ls) :
    getlines (c :: cs) = (c :: l) :: ls := by
  rw [getlines.eq_def]
  simp only [h, if_false, hg]

/-- The lines `std::getline` delivers are the lines of the text, except that a text
that is empty or ends in a newline has one more, empty, last line. -/
theorem textLines_eq_getlines (text : List Char) :
    textLines text = getlines text ∨ textLines text = getlines text ++ [[]] := by
  unfold textLines List.splitOn
  induction text with
  | nil => right; simp [getlines_nil, List.splitOnP_nil]
  | cons c cs ih =>
    rw [List.splitOnP_cons]
    by_cases hc : c = '\n'
    · subst hc
      rw [getlines_cons_newline]
      rcases ih with ih | ih
      · left; simp [ih]
      · right; simp [ih]
    · have hb : (c == '\n') = false := by simpa using hc
      simp only [hb, Bool.false_eq_true, if_false]
      rcases hg : getlines cs with _ | ⟨l, ls⟩
      · rw [getlines_cons_last c cs hc hg]
        rw [hg] at ih
        rcases ih with ih | ih
        · exact absurd ih (List.splitOnP_ne_nil _ cs)
        · left; simp [ih, List.modifyHead]
      · rw [getlines_cons_char c cs hc l ls hg]
        rw [hg] at ih
        rcases ih with ih | ih
        · left; simp [ih, List.modifyHead]
        · right; simp [ih, List.modifyHead]

/-- Selecting lines by a test that the empty line fails gives the same for the lines
of the text and for the lines `std::getline` delivers. -/
theorem filter_getlines (p : List Char → Bool) (hp : p [] = false) (text : List Char) :
    (getlines text).filter p = (textLines text).filter p := by
  rcases textLines_eq_getlines text with h | h
  · rw [h]
  · rw [h, List.filter_append]
    simp [hp]

/-- A decimal digit is not whitespace, not a sign and not a slash. -/
theorem isDigit_not_special (c : Char) (h : c.isDigit = true) :
    isspace c = false ∧ c ≠ '-' ∧ c ≠ '+' ∧ c ≠ '/' := by
  refine ⟨?_, ?_, ?_, ?_⟩
  · cases hs : isspace c with
    | false => rfl
    | true =>
      simp only [isspace, Bool.or_eq_true, decide_eq_true_eq] at hs
      rcases hs with ((((hs | hs) | hs) | hs) | hs) | hs <;> subst hs <;> exact absurd h (by decide)
  · intro hc; subst hc; exact absurd h (by decide)
  · intro hc; subst hc; exact absurd h (by decide)
  · intro hc; subst hc; exact absurd h (by decide)

/-- On a non-empty run of digits whose value fits `unsigned long`, `std::stoul` returns
that value. -/
theorem stoul_digits (ds : List Char) (hne : ds ≠ []) (hd : ds.all Char.isDigit = true)
    (hv : digitsValue ds < 2 ^ 64) : stoul ds = Except.ok (digitsValue ds) := by
  obtain ⟨c, cs, rfl⟩ := List.exists_cons_of_ne_nil hne
  have hall : ∀ x ∈ c :: cs, x.isDigit = true := by simpa using hd
  have hc := isDigit_not_special c (hall c (List.mem_cons_self c cs))
  have h1 : (c :: cs).dropWhile isspace = c :: cs := by
    simp [List.dropWhile_cons, hc.1]
  have h2 : (c :: cs).takeWhile Char.isDigit = c :: cs :=
    List.takeWhile_eq_self_iff.mpr hall
  have hv2 : ¬ digitsValue (c :: cs) ≥ 2 ^ 64 := not_le.mpr hv
  unfold stoul
  simp only [h1, List.head?_cons, Option.some.injEq, hc.2.1, hc.2.2.1, or_self, if_false, h2,
    decide_False]
  rw [if_neg hne, if_neg hv2]
  simp

/-- For a token that is a positive index, the pushed value is the numeral less one. -/
theorem faceIndex_of_positive (token : List Char) (h : isPositiveIndex token = true) :
    faceIndex token = Except.ok (digitsValue (numericHead token) - 1) := by
  simp only [isPositiveIndex, Bool.and_eq_true, Bool.not_eq_true', decide_eq_true_eq] at h
  obtain ⟨⟨⟨hne, hd⟩, h1⟩, h2⟩ := h
  have hne2 : numericHead token ≠ [] := by
    intro h0; rw [h0] at hne; simp at hne
  have hv : digitsValue (numericHead token) < 2 ^ 64 :=
    lt_of_le_of_lt h2 (by norm_num)
  have hs := stoul_digits (numericHead token) hne2 hd hv
  rw [numericHead_eq_takeWhile] at hs
  have key : ∀ v : Nat, 1 ≤ v → v ≤ 2 ^ 32 → ((v + 2 ^ 64 - 1) % 2 ^ 64) % 2 ^ 32 = v - 1 := by
    intro v hv1 hv2
    norm_num at hv2 ⊢
    omega
  unfold faceIndex
  rw [hs]
  simp only []
  rw [← numericHead_eq_takeWhile, key _ h1 h2]

/-- A face line all of whose tokens are positive indices pushes, for each token in
order, the numeral less one, and throws nothing. -/
theorem scanFace_of_positive (toks : List (List Char)) (facets : List Nat)
    (h : ∀ t ∈ toks, isPositiveIndex t = true) :
    scanFace toks facets =
      (facets ++ toks.map (fun t => digitsValue (numericHead t) - 1), none) := by
  induction toks generalizing facets with
  | nil => simp [scanFace]
  | cons t ts ih =>
    have ht := faceIndex_of_positive t (h t (List.mem_cons_self t ts))
    have hts := ih (facets ++ [digitsValue (numericHead t) - 1])
      (fun u hu => h u (List.mem_cons_of_mem t hu))
    rw [scanFace, ht]
    simp only [hts, List.map_cons, List.append_assoc, List.singleton_append]

/-! ## The line loop -/

/-- A vertex line appends one vertex and throws nothing. -/
theorem scanLine_vertex (line : List Char) (m : ViewerModel) (h : isVertexLine line = true) :
    scanLine line m =
      ({ m with vertices := m.vertices ++ [readVertex (line.drop 2)] }, none) := by
  have h2 : line.take 2 = ['v', ' '] := by simpa [isVertexLine] using h
  unfold scanLine
  rw [if_pos h2]

/-- A face line runs the token loop on the rest of the line. -/
theorem scanLine_face (line : List Char) (m : ViewerModel) (h : isFaceLine line = true) :
    scanLine line m =
      ({ m with facets := (scanFace (tokens (line.drop 2)) m.facets).1 },
        (scanFace (tokens (line.drop 2)) m.facets).2) := by
  have h2 : line.take 2 = ['f', ' '] := by simpa [isFaceLine] using h
  have h1 : ¬ line.take 2 = ['v', ' '] := by rw [h2]; decide
  unfold scanLine
  rw [if_neg h1, if_pos h2]

/-- A line that is neither a vertex line nor a face line changes nothing. -/
theorem scanLine_other (line : List Char) (m : ViewerModel)
    (h : isRecordLine line = false) : scanLine line m = (m, none) := by
  simp only [isRecordLine, isVertexLine, isFaceLine, Bool.or_eq_false_iff,
    decide_eq_false_iff_not] at h
  unfold scanLine
  rw [if_neg h.1, if_neg h.2]

/-- A face line is not a vertex line. -/
theorem isFaceLine_not_vertex (line : List Char) (h : isFaceLine line = true) :
    isVertexLine line = false := by
  have h2 : line.take 2 = ['f', ' '] := by simpa [isFaceLine] using h
  simp [isVertexLine, h2]

/-- Lines that are not records can be dropped from the scan. -/
theorem scanLines_filter (lines : List (List Char)) (m : ViewerModel) :
    scanLines (lines.filter isRecordLine) m = scanLines lines m := by
  induction lines generalizing m with
  | nil => rfl
  | cons line rest ih =>
    cases h : isRecordLine line with
    | false =>
      rw [List.filter_cons_of_neg (by simp [h])]
      rw [ih, scanLines, scanLine_other line m h]
    | true =>
      rw [List.filter_cons_of_pos h, scanLines, scanLines]
      rcases scanLine line m with ⟨m1, _ | e⟩
      · exact ih m1
      · rfl

/-- A scan that throws nothing has appended the vertex records in file order. -/
theorem scanLines_vertices (lines : List (List Char)) (m : ViewerModel)
    (h : (scanLines lines m).2 = none) :
    (scanLines lines m).1.vertices =
      m.vertices ++ (lines.filter isVertexLine).map (fun line => readVertex (line.drop 2)) := by
  induction lines generalizing m with
  | nil => simp [scanLines]
  | cons line rest ih =>
    cases hv : isVertexLine line with
    | true =>
      rw [scanLines, scanLine_vertex line m hv] at h ⊢
      rw [List.filter_cons_of_pos hv]
      rw [ih _ h]
      simp
    | false =>
      rw [List.filter_cons_of_neg (by simp [hv])]
      cases hf : isFaceLine line with
      | true =>
        rw [scanLines, scanLine_face line m hf] at h ⊢
        rcases hs : (scanFace (tokens (List.drop 2 line)) m.facets).2 with _ | e
        · simp only [hs] at h ⊢
          rw [ih _ h]
        · simp only [hs] at h
          exact absurd h (by simp)
      | false =>
        have ho : isRecordLine line = false := by simp [isRecordLine, hv, hf]
        rw [scanLines, scanLine_other line m ho] at h ⊢
        exact ih m h

/-- When every token of every face line is a positive index, the scan throws nothing
and has appended, line by line and token by token, the numerals less one. -/
theorem scanLines_facets (lines : List (List Char)) (m : ViewerModel)
    (h : ∀ line ∈ lines.filter isFaceLine, ∀ t ∈ wsTokens (line.drop 2),
      isPositiveIndex t = true) :
    (scanLines lines m).2 = none ∧
      (scanLines lines m).1.facets =
        m.facets ++ (lines.filter isFaceLine).flatMap
          (fun line => (wsTokens (line.drop 2)).map
            (fun t => digitsValue (numericHead t) - 1)) := by
  induction lines generalizing m with
  | nil => simp [scanLines]
  | cons line rest ih =>
    cases hf : isFaceLine line with
    | true =>
      rw [List.filter_cons_of_pos hf] at h ⊢
      have hrest := fun m1 => ih m1 (fun l hl => h l (List.mem_cons_of_mem line hl))
      have hline := scanFace_of_positive (tokens (line.drop 2)) m.facets
        (by rw [tokens_eq_wsTokens]; exact h line (List.mem_cons_self line _))
      rw [scanLines, scanLine_face line m hf, hline]
      simp only []
      refine ⟨(hrest _).1, ?_⟩
      rw [(hrest _).2, tokens_eq_wsTokens]
      simp
    | false =>
      rw [List.filter_cons_of_neg (by simp [hf])] at h ⊢
      cases hv : isVertexLine line with
      | true =>
        rw [scanLines, scanLine_vertex line m hv]
        exact ih _ h
      | false =>
        have ho : isRecordLine line = false := by simp [isRecordLine, hv, hf]
        rw [scanLines, scanLine_other line m ho]
        exact ih m h

/-! ## Loading: the mesh after a successful load -/

/-- Normalisation maps every vertex by the same centre and size, in place. -/
theorem normalizeVertices_vertices (m : ViewerModel) :
    (normalizeVertices m).vertices =
      m.vertices.map (normalizePoint (center (m.vertices.headD {}) m.vertices)
        (maxSize (m.vertices.headD {}) m.vertices)) := by
  unfold normalizeVertices
  rcases hv : m.vertices with _ | ⟨v0, vs⟩
  · simp [hv]
  · simp

/-- The face lines of a text are among the lines `std::getline` delivers, and the other
way round; likewise for vertex lines and record lines. -/
theorem filter_getlines_lines (text : List Char) :
    (getlines text).filter isFaceLine = (textLines text).filter isFaceLine ∧
      (getlines text).filter isVertexLine = (textLines text).filter isVertexLine ∧
      (getlines text).filter isRecordLine = (textLines text).filter isRecordLine :=
  ⟨filter_getlines isFaceLine (by decide) text, filter_getlines isVertexLine (by decide) text,
    filter_getlines isRecordLine (by decide) text⟩

/-- C9: when every whitespace-separated token of every line beginning with "f " has,
before its first '/', a decimal numeral for a positive 1-based index (at most 2^32, so
that the 0-based index fits the index type), the load is successful and the index list
is the concatenation, in file order, over those lines, of each token's numeral
decremented by one. -/
theorem loadOBJ_facets_are_decremented_indices (m : ViewerModel) (content : String)
    (h : ∀ line ∈ (textLines content.toList).filter isFaceLine,
      ∀ t ∈ wsTokens (line.drop 2), isPositiveIndex t = true) :
    (loadOBJ m (some content)).2 = LoadStatus.loaded ∧
      (loadOBJ m (some content)).1.facets = specFaceIndices content.toList := by
  rw [← (filter_getlines_lines content.toList).1] at h
  have hs := scanLines_facets (getlines content.toList)
    { vertices := [], facets := [], affine_transform := {},
      modelDefinition := m.modelDefinition } h
  rw [loadOBJ_some]
  rcases hr : scanLines (getlines content.toList)
    { vertices := [], facets := [], affine_transform := {},
      modelDefinition := m.modelDefinition } with ⟨m3, _ | e⟩
  · rw [hr] at hs
    refine ⟨rfl, ?_⟩
    simp only []
    rw [(normalizeVertices_keeps_rest m3).2.2, hs.2, (filter_getlines_lines content.toList).1]
    simp [specFaceIndices]
  · rw [hr] at hs
    exact absurd hs.1 (by simp)

/-- C9 at a concrete text: the two face lines of the claim, `f 1/2/3 4//5 6` and `f 1 2 3`,
contribute `[0, 3, 5]` and `[0, 1, 2]`. -/
theorem loadOBJ_facets_are_decremented_indices_witness :
    (∀ line ∈ (textLines "v 0 0 0\nv 2 0 0\nf 1/2/3 4//5 6\nf 1 2 3\n".toList).filter isFaceLine,
      ∀ t ∈ wsTokens (line.drop 2), isPositiveIndex t = true) ∧
    (loadOBJ {} (some "v 0 0 0\nv 2 0 0\nf 1/2/3 4//5 6\nf 1 2 3\n")).2 = LoadStatus.loaded ∧
    (loadOBJ {} (some "v 0 0 0\nv 2 0 0\nf 1/2/3 4//5 6\nf 1 2 3\n")).1.facets = [0, 3, 5, 0, 1, 2] := by
  have hw : ∀ line ∈ (textLines "v 0 0 0\nv 2 0 0\nf 1/2/3 4//5 6\nf 1 2 3\n".toList).filter isFaceLine,
      ∀ t ∈ wsTokens (line.drop 2), isPositiveIndex t = true := by decide
  have key := loadOBJ_facets_are_decremented_indices {} "v 0 0 0\nv 2 0 0\nf 1/2/3 4//5 6\nf 1 2 3\n" hw
  refine ⟨hw, key.1, ?_⟩
  rw [key.2]
  decide

/-- C10: after a successful load the number of vertices is the number of lines whose
first two characters are "v ", the vertices are, in file order, the vertex records of
those lines (each mapped by the normaliser with the one centre and size of the whole
mesh), and lines that begin with neither "v " nor "f " change nothing: two texts whose
"v " and "f " lines agree load to the same result. -/
theorem loadOBJ_vertices_in_file_order (m : ViewerModel) (content : String)
    (h : (loadOBJ m (some content)).2 = LoadStatus.loaded) :
    (loadOBJ m (some content)).1.vertices.length =
        ((textLines content.toList).filter isVertexLine).length ∧
      (loadOBJ m (some content)).1.vertices =
        (specVertices content.toList).map
          (normalizePoint
            (center ((specVertices content.toList).headD {}) (specVertices content.toList))
            (maxSize ((specVertices content.toList).headD {}) (specVertices content.toList))) ∧
      (∀ other : String,
        (textLines other.toList).filter isRecordLine =
            (textLines content.toList).filter isRecordLine →
          loadOBJ m (some other) = loadOBJ m (some content)) := by
  have hv : (loadOBJ m (some content)).1.vertices =
      (specVertices content.toList).map
        (normalizePoint
          (center ((specVertices content.toList).headD {}) (specVertices content.toList))
          (maxSize ((specVertices content.toList).headD {}) (specVertices content.toList))) := by
    rw [loadOBJ_some] at h ⊢
    have hs := scanLines_vertices (getlines content.toList)
      { vertices := [], facets := [], affine_transform := {},
        modelDefinition := m.modelDefinition }
    rcases hr : scanLines (getlines content.toList)
      { vertices := [], facets := [], affine_transform := {},
        modelDefinition := m.modelDefinition } with ⟨m3, _ | e⟩
    · rw [hr] at hs
      have hs := hs rfl
      simp only [List.nil_append] at hs
      rw [(filter_getlines_lines content.toList).2.1] at hs
      simp only []
      rw [normalizeVertices_vertices, hs]
      rfl
    · rw [hr] at h
      exact absurd h (by simp)
  refine ⟨?_, hv, ?_⟩
  · rw [hv]
    simp [specVertices]
  · intro other ho
    rw [← (filter_getlines_lines other.toList).2.2,
      ← (filter_getlines_lines content.toList).2.2] at ho
    rw [loadOBJ_some, loadOBJ_some, ← scanLines_filter (getlines other.toList), ho,
      scanLines_filter]

/-- C10 at a concrete text: a text with comment, `vn`, `vt`, `g`, `usemtl`, blank and indented
lines loads like the text of its two `v` lines and its `f` line alone. -/
theorem loadOBJ_vertices_in_file_order_witness :
    (loadOBJ {} (some "# c\nvn 0 0 1\nv 1 2 3\nvt 0 0\ng\nusemtl m\n\n v 9 9 9\nv 3 2 1\nf 1 2\n")).2
        = LoadStatus.loaded ∧
      (loadOBJ {} (some "# c\nvn 0 0 1\nv 1 2 3\nvt 0 0\ng\nusemtl m\n\n v 9 9 9\nv 3 2 1\nf 1 2\n")).1.vertices.length
        = 2 ∧
      loadOBJ {} (some "v 1 2 3\nv 3 2 1\nf 1 2") =
        loadOBJ {} (some "# c\nvn 0 0 1\nv 1 2 3\nvt 0 0\ng\nusemtl m\n\n v 9 9 9\nv 3 2 1\nf 1 2\n") := by
  have hl : (loadOBJ {} (some "# c\nvn 0 0 1\nv 1 2 3\nvt 0 0\ng\nusemtl m\n\n v 9 9 9\nv 3 2 1\nf 1 2\n")).2
      = LoadStatus.loaded := by decide
  have key := loadOBJ_vertices_in_file_order {}
    "# c\nvn 0 0 1\nv 1 2 3\nvt 0 0\ng\nusemtl m\n\n v 9 9 9\nv 3 2 1\nf 1 2\n" hl
  refine ⟨hl, ?_, key.2.2 "v 1 2 3\nv 3 2 1\nf 1 2" (by decide)⟩
  rw [key.1]
  decide

/-! ## Reset and style widths -/

/-- C15: for every state and every flag, `setDefault(flag)` leaves the TransformState at
the defaults (projection Parallel, the three rotation angles 0, the three translations
0, scaleFactor 1.0, fov 45.0); a non-zero flag also sets facetWidth to 0, verticeType to
Square and verticeWidth to 5.0; a zero flag leaves the whole StyleState unchanged; the
three colours are unchanged in both cases, and so is the mesh. -/
theorem setDefault_resets (m : ViewerModel) (flag : Int) :
    (setDefault m flag).affine_transform =
        { projectionType := ProjectionType.Parallel, rotateAngleX := 0, rotateAngleY := 0,
          rotateAngleZ := 0, scaleFactor := 1, translateX := 0, translateY := 0,
          translateZ := 0, fov := 45 } ∧
      (flag ≠ 0 →
        (setDefault m flag).modelDefinition.facetWidth = 0 ∧
          (setDefault m flag).modelDefinition.verticeType = VerticeType.Square ∧
          (setDefault m flag).modelDefinition.verticeWidth = 5) ∧
      (flag = 0 → (setDefault m flag).modelDefinition = m.modelDefinition) ∧
      ((setDefault m flag).modelDefinition.facetColor = m.modelDefinition.facetColor ∧
        (setDefault m flag).modelDefinition.verticeColor = m.modelDefinition.verticeColor ∧
        (setDefault m flag).modelDefinition.backgroundColor
          = m.modelDefinition.backgroundColor) ∧
      ((setDefault m flag).vertices = m.vertices ∧ (setDefault m flag).facets = m.facets) := by
  by_cases h : flag = 0
  · subst h
    refine ⟨?_, ?_, ?_, ?_, ?_⟩
    · simp [setDefault]; norm_num
    · intro h0; exact absurd rfl h0
    · intro _; simp [setDefault]
    · simp [setDefault]
    · simp [setDefault]
  · refine ⟨?_, ?_, ?_, ?_, ?_⟩
    · simp [setDefault, h]; norm_num
    · intro _; simp [setDefault, h]; norm_num
    · intro h0; exact absurd h0 h
    · simp [setDefault, h]
    · simp [setDefault, h]

/-- C15 at a concrete state, with flag 1 and with flag 0. -/
theorem setDefault_resets_witness :
    (setDefault (ViewerModel.mk [] [] {} (ModelDefinition.mk {} 3 {} VerticeType.Circle 9 {})) 1).modelDefinition.facetWidth = 0 ∧
      (setDefault (ViewerModel.mk [] [] {} (ModelDefinition.mk {} 3 {} VerticeType.Circle 9 {})) 1).modelDefinition.verticeType = VerticeType.Square ∧
      (setDefault (ViewerModel.mk [] [] {} (ModelDefinition.mk {} 3 {} VerticeType.Circle 9 {})) 1).modelDefinition.verticeWidth = 5 ∧
      (setDefault (ViewerModel.mk [] [] {} (ModelDefinition.mk {} 3 {} VerticeType.Circle 9 {})) 0).modelDefinition =
        ModelDefinition.mk {} 3 {} VerticeType.Circle 9 {} := by
  have h1 := (setDefault_resets (ViewerModel.mk [] [] {} (ModelDefinition.mk {} 3 {} VerticeType.Circle 9 {})) 1).2.1 (by decide)
  have h0 := (setDefault_resets (ViewerModel.mk [] [] {} (ModelDefinition.mk {} 3 {} VerticeType.Circle 9 {})) 0).2.2.1 rfl
  exact ⟨h1.1, h1.2.1, h1.2.2, h0⟩

/-- C16: `setFacetWidth(scalePlus)` sets the facet width to 0.005 when the current width
is exactly 0 and otherwise adds 0.0005 to it, and changes nothing else; two '+' calls
from the default width 0 give 0.005 and then 0.0055. -/
theorem setFacetWidth_plus (m : ViewerModel) (md : ModelDefinition) :
    (m.modelDefinition.facetWidth = 0 →
        (setFacetWidth m ScaleType.scalePlus).modelDefinition.facetWidth = 0.005) ∧
      (m.modelDefinition.facetWidth ≠ 0 →
        (setFacetWidth m ScaleType.scalePlus).modelDefinition.facetWidth =
          m.modelDefinition.facetWidth + 0.0005) ∧
      (setFacetWidth m ScaleType.scalePlus =
        { m with modelDefinition :=
            { m.modelDefinition with
              facetWidth := (setFacetWidth m ScaleType.scalePlus).modelDefinition.facetWidth } }) ∧
      (md.facetWidth = 0 →
        (setFacetWidth (freshModel md) ScaleType.scalePlus).modelDefinition.facetWidth = 0.005 ∧
        (setFacetWidth (setFacetWidth (freshModel md) ScaleType.scalePlus)
          ScaleType.scalePlus).modelDefinition.facetWidth = 0.0055) := by
  refine ⟨?_, ?_, ?_, ?_⟩
  · intro h; simp [setFacetWidth, h]
  · intro h; simp [setFacetWidth, h]
  · by_cases h : m.modelDefinition.facetWidth = 0 <;> simp [setFacetWidth, h]
  · intro h
    constructor
    · simp [setFacetWidth, freshModel, h]
    · simp [setFacetWidth, freshModel, h]; norm_num

/-- C16 at the default style: the widths 0.005 and 0.0055 of the test. -/
theorem setFacetWidth_plus_witness :
    (setFacetWidth (freshModel {}) ScaleType.scalePlus).modelDefinition.facetWidth = 0.005 ∧
      (setFacetWidth (setFacetWidth (freshModel {}) ScaleType.scalePlus)
        ScaleType.scalePlus).modelDefinition.facetWidth = 0.0055 ∧
      (setFacetWidth { modelDefinition := { facetWidth := 1 } }
        ScaleType.scalePlus).modelDefinition.facetWidth = 1 + 0.0005 := by
  have h := (setFacetWidth_plus (freshModel {}) {}).2.2.2 rfl
  have h2 := (setFacetWidth_plus { modelDefinition := { facetWidth := 1 } } {}).2.1
    (by norm_num)
  exact ⟨h.1, h.2, h2⟩

/-- C17, as stated, fails: from the non-zero width 0.001, which is at least 0.001,
`setFacetWidth(scaleMinus)` goes to 0.0005, which is below 0.001. -/
theorem setFacetWidth_minus_below_claimed_floor :
    (ModelDefinition.mk {} 0.001 {} VerticeType.Square 5 {}).facetWidth ≠ 0 ∧
      (ModelDefinition.mk {} 0.001 {} VerticeType.Square 5 {}).facetWidth ≥ 0.001 ∧
      (setFacetWidth (ViewerModel.mk [] [] {} (ModelDefinition.mk {} 0.001 {} VerticeType.Square 5 {}))
        ScaleType.scaleMinus).modelDefinition.facetWidth = 0.0005 ∧
      ¬ (setFacetWidth (ViewerModel.mk [] [] {} (ModelDefinition.mk {} 0.001 {} VerticeType.Square 5 {}))
        ScaleType.scaleMinus).modelDefinition.facetWidth ≥ 0.001 := by
  decide!

/-- C17, amended: decrementing the facet width is guarded at 0.001 before the step, not
after it: for every starting width that is at least 0.001, the width after
`setFacetWidth(scaleMinus)` is the starting width less 0.0005 and so at least 0.0005;
a non-zero width below 0.001 is left as it is. -/
theorem setFacetWidth_minus_floor (m : ViewerModel) :
    (m.modelDefinition.facetWidth ≥ 0.001 →
        (setFacetWidth m ScaleType.scaleMinus).modelDefinition.facetWidth =
            m.modelDefinition.facetWidth - 0.0005 ∧
          (setFacetWidth m ScaleType.scaleMinus).modelDefinition.facetWidth ≥ 0.0005) ∧
      (m.modelDefinition.facetWidth ≠ 0 → m.modelDefinition.facetWidth < 0.001 →
        setFacetWidth m ScaleType.scaleMinus = m) := by
  constructor
  · intro h
    have h0 : m.modelDefinition.facetWidth ≠ 0 := by
      intro h0; rw [h0] at h; norm_num at h
    have hv : (setFacetWidth m ScaleType.scaleMinus).modelDefinition.facetWidth =
        m.modelDefinition.facetWidth - 0.0005 := by
      simp [setFacetWidth, h0, h]
    refine ⟨hv, ?_⟩
    rw [hv]
    norm_num at h ⊢
    linarith
  · intro h0 h1
    have h2 : ¬ m.modelDefinition.facetWidth ≥ 0.001 := not_le.mpr h1
    simp [setFacetWidth, h0]
    intro h3
    exact absurd h3 (by simpa using h2)

/-- C17 amended, at the widths 0.001 (stepped down to the floor 0.0005) and 0.0005
(left alone). -/
theorem setFacetWidth_minus_floor_witness :
    (setFacetWidth (ViewerModel.mk [] [] {} (ModelDefinition.mk {} 0.001 {} VerticeType.Square 5 {}))
        ScaleType.scaleMinus).modelDefinition.facetWidth ≥ 0.0005 ∧
      setFacetWidth (ViewerModel.mk [] [] {} (ModelDefinition.mk {} 0.0005 {} VerticeType.Square 5 {}))
        ScaleType.scaleMinus =
        ViewerModel.mk [] [] {} (ModelDefinition.mk {} 0.0005 {} VerticeType.Square 5 {}) := by
  have h1 := (setFacetWidth_minus_floor
    (ViewerModel.mk [] [] {} (ModelDefinition.mk {} 0.001 {} VerticeType.Square 5 {}))).1
    (by norm_num)
  have h2 := (setFacetWidth_minus_floor
    (ViewerModel.mk [] [] {} (ModelDefinition.mk {} 0.0005 {} VerticeType.Square 5 {}))).2
    (by norm_num) (by norm_num)
  exact ⟨h1.2, h2⟩

/-- C18, as stated, fails: from the default width 5.0, eight `setVerticeWidth(scalePlus)`
calls reach 13, and four `setVerticeWidth(scaleMinus)` calls reach 1; both are outside
[2.0, 12.0]. -/
theorem setVerticeWidth_leaves_claimed_range :
    ((List.replicate 8 ScaleType.scalePlus).foldl setVerticeWidth
        (freshModel {})).modelDefinition.verticeWidth = 13 ∧
      ((List.replicate 4 ScaleType.scaleMinus).foldl setVerticeWidth
        (freshModel {})).modelDefinition.verticeWidth = 1 ∧
      ¬ ((13 : ℚ) ≤ 12.0) ∧ ¬ ((2.0 : ℚ) ≤ 1) := by
  decide!

/-- One `setVerticeWidth` call keeps the width in [1, 13]. -/
theorem setVerticeWidth_keeps_range (m : ViewerModel) (f : ScaleType)
    (h : 1 ≤ m.modelDefinition.verticeWidth ∧ m.modelDefinition.verticeWidth ≤ 13) :
    1 ≤ (setVerticeWidth m f).modelDefinition.verticeWidth ∧
      (setVerticeWidth m f).modelDefinition.verticeWidth ≤ 13 := by
  obtain ⟨h1, h2⟩ := h
  cases f with
  | scalePlus =>
    by_cases hg : m.modelDefinition.verticeWidth ≤ 12.0
    · simp only [setVerticeWidth, if_true, if_pos hg]
      norm_num at hg ⊢
      constructor <;> linarith
    · simp only [setVerticeWidth, if_true, if_neg hg]
      exact ⟨h1, h2⟩
  | scaleMinus =>
    by_cases hg : m.modelDefinition.verticeWidth ≥ 2.0
    · simp [setVerticeWidth, hg]
      norm_num at hg ⊢
      constructor <;> linarith
    · simp [setVerticeWidth, hg]
      exact ⟨h1, h2⟩

/-- C18, amended: the vertex glyph width is bounded to [1.0, 13.0]: starting from any
width in [1.0, 13.0] (the default 5.0 and every width in [2.0, 12.0] among them), after
every finite sequence of `setVerticeWidth(scalePlus)` and `setVerticeWidth(scaleMinus)`
calls the width is still in [1.0, 13.0]. -/
theorem setVerticeWidth_bounded (m : ViewerModel) (calls : List ScaleType)
    (h : 1.0 ≤ m.modelDefinition.verticeWidth ∧ m.modelDefinition.verticeWidth ≤ 13.0) :
    1.0 ≤ (calls.foldl setVerticeWidth m).modelDefinition.verticeWidth ∧
      (calls.foldl setVerticeWidth m).modelDefinition.verticeWidth ≤ 13.0 := by
  have h' : 1 ≤ m.modelDefinition.verticeWidth ∧ m.modelDefinition.verticeWidth ≤ 13 := by
    norm_num at h; exact h
  have key : ∀ (cs : List ScaleType) (s : ViewerModel),
      (1 ≤ s.modelDefinition.verticeWidth ∧ s.modelDefinition.verticeWidth ≤ 13) →
      1 ≤ (cs.foldl setVerticeWidth s).modelDefinition.verticeWidth ∧
        (cs.foldl setVerticeWidth s).modelDefinition.verticeWidth ≤ 13 := by
    intro cs
    induction cs with
    | nil => intro s hs; exact hs
    | cons c rest ih => intro s hs; exact ih _ (setVerticeWidth_keeps_range s c hs)
  have := key calls m h'
  norm_num
  exact this

/-- C18 amended, from the default width 5.0 under a mixed sequence of calls. -/
theorem setVerticeWidth_bounded_witness :
    1.0 ≤ ([ScaleType.scalePlus, ScaleType.scaleMinus, ScaleType.scalePlus].foldl
        setVerticeWidth (freshModel {})).modelDefinition.verticeWidth ∧
      ([ScaleType.scalePlus, ScaleType.scaleMinus, ScaleType.scalePlus].foldl
        setVerticeWidth (freshModel {})).modelDefinition.verticeWidth ≤ 13.0 :=
  setVerticeWidth_bounded (freshModel {})
    [ScaleType.scalePlus, ScaleType.scaleMinus, ScaleType.scalePlus]
    (by norm_num [freshModel])

/-! ## Loading: tokens that are not numbers -/

/-- The tokens the token loop delivers contain no whitespace. -/
theorem tokens_no_space (text : List Char) :
    ∀ t ∈ tokens text, ∀ c ∈ t, isspace c = false := by
  induction text with
  | nil => simp [tokens_nil]
  | cons c cs ih =>
    by_cases hc : isspace c = true
    · rw [tokens_cons_space c cs hc]; exact ih
    · have hc2 : isspace c = false := by simpa using hc
      cases cs with
      | nil =>
        rw [tokens_single c hc]
        intro t ht x hx
        simp at ht; subst ht
        simp at hx; subst hx; exact hc2
      | cons d ds =>
        by_cases hd : isspace d = true
        · rw [tokens_cons_before_space c d ds hc hd]
          intro t ht x hx
          rcases List.mem_cons.mp ht with h | h
          · subst h; simp at hx; subst hx; exact hc2
          · exact ih t h x hx
        · rcases hts : tokens (d :: ds) with _ | ⟨u, us⟩
          · -- a text starting with a character that is not whitespace has a token
            exfalso
            cases ds with
            | nil => rw [tokens_single d hd] at hts; simp at hts
            | cons e es =>
              by_cases he : isspace e = true
              · rw [tokens_cons_before_space d e es hd he] at hts; simp at hts
              · rcases hes : tokens (e :: es) with _ | ⟨w, ws⟩
                · rw [tokens.eq_def] at hts
                  simp only [hd, he, hes] at hts
                  simp at hts
                · rw [tokens_cons_before_char d e es hd he w ws hes] at hts; simp at hts
          · rw [tokens_cons_before_char c d ds hc hd u us hts]
            rw [hts] at ih
            intro t ht x hx
            rcases List.mem_cons.mp ht with h | h
            · subst h
              rcases List.mem_cons.mp hx with hx | hx
              · subst hx; exact hc2
              · exact ih u (List.mem_cons_self u us) x hx
            · exact ih t (List.mem_cons_of_mem u h) x hx

/-- On text without whitespace that does not start a decimal integer, `std::stoul`
throws `invalid_argument`. -/
theorem stoul_invalid (s : List Char) (hs : ∀ c ∈ s, isspace c = false)
    (h : lacksLeadingDigit s = true) : stoul s = Except.error StoulError.invalid_argument := by
  have h1 : s.dropWhile isspace = s := by
    cases s with
    | nil => rfl
    | cons c cs => simp [List.dropWhile_cons, hs c (List.mem_cons_self c cs)]
  have h2 : (if s.head? = some '-' ∨ s.head? = some '+' then s.tail else s).takeWhile
      Char.isDigit = [] := by
    cases s with
    | nil => simp
    | cons c cs =>
      by_cases hc : c = '-' ∨ c = '+'
      · simp only [lacksLeadingDigit, if_pos hc] at h
        simp only [List.head?_cons, Option.some.injEq, hc, if_true, List.tail_cons]
        cases cs with
        | nil => rfl
        | cons d ds =>
          simp at h
          simp [List.takeWhile_cons, h]
      · simp only [lacksLeadingDigit, if_neg hc] at h
        simp only [List.head?_cons, Option.some.injEq, hc, if_false]
        simp at h
        simp [List.takeWhile_cons, h]
  unfold stoul
  simp only [h1, h2, if_true]

/-- A face token whose numeric part does not start a decimal integer makes the index
computation throw. -/
theorem faceIndex_invalid (token : List Char) (hs : ∀ c ∈ token, isspace c = false)
    (h : lacksLeadingDigit (numericHead token) = true) :
    faceIndex token = Except.error StoulError.invalid_argument := by
  rw [numericHead_eq_takeWhile] at h
  have hs2 : ∀ c ∈ token.takeWhile (fun c => c ≠ '/'), isspace c = false :=
    fun c hc => hs c (List.takeWhile_subset _ hc)
  unfold faceIndex
  rw [stoul_invalid _ hs2 h]

/-- A token loop that meets a token without a leading digit ends with an exception. -/
theorem scanFace_throws (toks : List (List Char)) (facets : List Nat)
    (hs : ∀ t ∈ toks, ∀ c ∈ t, isspace c = false)
    (h : ∃ t ∈ toks, lacksLeadingDigit (numericHead t) = true) :
    (scanFace toks facets).2 ≠ none := by
  induction toks generalizing facets with
  | nil => obtain ⟨t, ht, _⟩ := h; simp at ht
  | cons t ts ih =>
    rw [scanFace]
    rcases hf : faceIndex t with e | v
    · simp
    · simp only []
      obtain ⟨u, hu, hbad⟩ := h
      rcases List.mem_cons.mp hu with hu | hu
      · subst hu
        rw [faceIndex_invalid u (hs u (List.mem_cons_self u ts)) hbad] at hf
        simp at hf
      · exact ih _ (fun w hw => hs w (List.mem_cons_of_mem t hw)) ⟨u, hu, hbad⟩

/-- A scan that meets a face line with a token without a leading digit ends with an
exception. -/
theorem scanLines_throws (lines : List (List Char)) (m : ViewerModel)
    (h : ∃ line ∈ lines.filter isFaceLine, ∃ t ∈ wsTokens (line.drop 2),
      lacksLeadingDigit (numericHead t) = true) :
    (scanLines lines m).2 ≠ none := by
  induction lines generalizing m with
  | nil => obtain ⟨l, hl, _⟩ := h; simp at hl
  | cons line rest ih =>
    rw [scanLines]
    rcases hsl : scanLine line m with ⟨m1, _ | e⟩
    · simp only []
      apply ih
      obtain ⟨l, hl, t, ht, hbad⟩ := h
      rw [List.mem_filter] at hl
      rcases List.mem_cons.mp hl.1 with hl1 | hl1
      · subst hl1
        exfalso
        rw [scanLine_face l m hl.2] at hsl
        have hthrow := scanFace_throws (tokens (l.drop 2)) m.facets
          (tokens_no_space _) ⟨t, by rw [tokens_eq_wsTokens]; exact ht, hbad⟩
        simp only [Prod.mk.injEq] at hsl
        exact hthrow hsl.2
      · exact ⟨l, List.mem_filter.mpr ⟨hl1, hl.2⟩, t, ht, hbad⟩
    · simp

/-- A coordinate text whose first token cannot start a number makes the first
extraction fail, so that the vertex read is the null vector. -/
theorem readVertex_of_lacksNumberStart (s : List Char) (h : lacksNumberStart s = true) :
    readVertex s = { x := 0, y := 0, z := 0 } := by
  have he : (extractFloat s).1 = none := by
    unfold extractFloat
    unfold lacksNumberStart at h
    rcases hd : s.dropWhile isspace with _ | ⟨c, cs⟩
    · simp
    · rw [hd] at h
      simp only [Bool.not_eq_true', Bool.or_eq_false_iff, decide_eq_false_iff_not] at h
      obtain ⟨⟨⟨h1, h2⟩, h3⟩, h4⟩ := h
      simp [takeFloatField, FloatField.value, h1, h2, h3, h4, List.takeWhile_cons,
        List.dropWhile_cons]
  unfold readVertex
  rcases hx : extractFloat s with ⟨_ | x, r⟩
  · rfl
  · rw [hx] at he; simp at he

/-- C11, as stated, fails: the text with the vertex line `v 1 x 3` and the face line
`f 1 2x` loads to normal completion; the vertex line is read as (1, 0, 0), the value 0
standing in for `x` and for the coordinate after it, and the token `2x` is read as 2. -/
theorem loadOBJ_completes_on_bad_tokens :
    (loadOBJ {} (some "v 1 x 3\nv 2 2 2\nf 1 2x\n")).2 = LoadStatus.loaded ∧
      specVertices "v 1 x 3\nv 2 2 2\nf 1 2x\n".toList =
        [{ x := 1, y := 0, z := 0 }, { x := 2, y := 2, z := 2 }] ∧
      (loadOBJ {} (some "v 1 x 3\nv 2 2 2\nf 1 2x\n")).1.facets = [0, 1] := by
  decide!

/-- C11, amended: an "f " line with a token whose part before '/' does not start, after
one optional sign, with a decimal digit makes `loadOBJ` end with the exception of
`std::stoul` propagated to its caller.  A "v " line never makes `loadOBJ` fail: when
every "f " token is a positive index the load completes normally whatever the "v " lines
contain, and a coordinate text whose first token cannot start a number is read as the
vertex (0, 0, 0). -/
theorem loadOBJ_parse_failures (m : ViewerModel) (content : String) :
    ((∃ line ∈ (textLines content.toList).filter isFaceLine,
        ∃ t ∈ wsTokens (line.drop 2), lacksLeadingDigit (numericHead t) = true) →
      ∃ e, (loadOBJ m (some content)).2 = LoadStatus.parseError e) ∧
    ((∀ line ∈ (textLines content.toList).filter isFaceLine,
        ∀ t ∈ wsTokens (line.drop 2), isPositiveIndex t = true) →
      (loadOBJ m (some content)).2 = LoadStatus.loaded) ∧
    (∀ s : List Char, lacksNumberStart s = true →
      readVertex s = { x := 0, y := 0, z := 0 }) := by
  refine ⟨?_, ?_, readVertex_of_lacksNumberStart⟩
  · intro h
    rw [← filter_getlines isFaceLine (by decide)] at h
    have ht := scanLines_throws (getlines content.toList)
      { vertices := [], facets := [], affine_transform := {},
        modelDefinition := m.modelDefinition } h
    rw [loadOBJ_some]
    rcases hr : scanLines (getlines content.toList)
      { vertices := [], facets := [], affine_transform := {},
        modelDefinition := m.modelDefinition } with ⟨m3, _ | e⟩
    · rw [hr] at ht; exact absurd rfl ht
    · exact ⟨e, rfl⟩
  · intro h
    rw [← filter_getlines isFaceLine (by decide)] at h
    have hs := scanLines_facets (getlines content.toList)
      { vertices := [], facets := [], affine_transform := {},
        modelDefinition := m.modelDefinition } h
    rw [loadOBJ_some]
    rcases hr : scanLines (getlines content.toList)
      { vertices := [], facets := [], affine_transform := {},
        modelDefinition := m.modelDefinition } with ⟨m3, _ | e⟩
    · rfl
    · rw [hr] at hs; exact absurd hs.1 (by simp)

/-- C11 amended, at concrete texts: a face token `a/2` throws, a vertex line of words
does not, and the words are read as (0, 0, 0). -/
theorem loadOBJ_parse_failures_witness :
    (∃ e, (loadOBJ {} (some "v 0 0 0\nf 1 a/2 3\n")).2 = LoadStatus.parseError e) ∧
      (loadOBJ {} (some "v one two three\nv 2 2 2\nf 1 2\n")).2 = LoadStatus.loaded ∧
      readVertex " one two three".toList = { x := 0, y := 0, z := 0 } := by
  have k1 := (loadOBJ_parse_failures {} "v 0 0 0\nf 1 a/2 3\n").1 (by decide)
  have k2 := (loadOBJ_parse_failures {} "v one two three\nv 2 2 2\nf 1 2\n").2.1 (by decide)
  have k3 := (loadOBJ_parse_failures {} "").2.2 " one two three".toList (by decide)
  exact ⟨k1, k2, k3⟩

/-! ## Normalisation: the bounding box -/

/-- The running minimum is below its start and below every element, and is one of them. -/
theorem foldMin_spec (c : QVector3D → ℚ) (init : ℚ) (vs : List QVector3D) :
    foldMin c init vs ≤ init ∧ (∀ v ∈ vs, foldMin c init vs ≤ c v) ∧
      (foldMin c init vs = init ∨ ∃ v ∈ vs, c v = foldMin c init vs) := by
  induction vs generalizing init with
  | nil => simp [foldMin]
  | cons w ws ih =>
    obtain ⟨h1, h2, h3⟩ := ih (min init (c w))
    have hf : foldMin c init (w :: ws) = foldMin c (min init (c w)) ws := rfl
    rw [hf]
    refine ⟨le_trans h1 (min_le_left _ _), ?_, ?_⟩
    · intro v hv
      rcases List.mem_cons.mp hv with hv | hv
      · subst hv; exact le_trans h1 (min_le_right _ _)
      · exact h2 v hv
    · rcases h3 with h3 | ⟨v, hv, hcv⟩
      · rcases min_choice init (c w) with hm | hm
        · left; rw [h3, hm]
        · right; exact ⟨w, List.mem_cons_self w ws, by rw [h3, hm]⟩
      · right; exact ⟨v, List.mem_cons_of_mem w hv, hcv⟩

/-- The running maximum is above its start and above every element, and is one of them. -/
theorem foldMax_spec (c : QVector3D → ℚ) (init : ℚ) (vs : List QVector3D) :
    init ≤ foldMax c init vs ∧ (∀ v ∈ vs, c v ≤ foldMax c init vs) ∧
      (foldMax c init vs = init ∨ ∃ v ∈ vs, c v = foldMax c init vs) := by
  induction vs generalizing init with
  | nil => simp [foldMax]
  | cons w ws ih =>
    obtain ⟨h1, h2, h3⟩ := ih (max init (c w))
    have hf : foldMax c init (w :: ws) = foldMax c (max init (c w)) ws := rfl
    rw [hf]
    refine ⟨le_trans (le_max_left _ _) h1, ?_, ?_⟩
    · intro v hv
      rcases List.mem_cons.mp hv with hv | hv
      · subst hv; exact le_trans (le_max_right _ _) h1
      · exact h2 v hv
    · rcases h3 with h3 | ⟨v, hv, hcv⟩
      · rcases max_choice init (c w) with hm | hm
        · left; rw [h3, hm]
        · right; exact ⟨w, List.mem_cons_self w ws, by rw [h3, hm]⟩
      · right; exact ⟨v, List.mem_cons_of_mem w hv, hcv⟩

/-- Started at the first vertex, the first loop of `normalizeVertices` finds the lower
face of the bounding box. -/
theorem foldMin_isBoxMin (c : QVector3D → ℚ) (v0 : QVector3D) (vs : List QVector3D) :
    IsBoxMin c (v0 :: vs) (foldMin c (c v0) (v0 :: vs)) := by
  obtain ⟨_, h2, h3⟩ := foldMin_spec c (c v0) (v0 :: vs)
  refine ⟨?_, h2⟩
  rcases h3 with h3 | ⟨v, hv, hcv⟩
  · exact ⟨v0, List.mem_cons_self v0 vs, h3.symm⟩
  · exact ⟨v, hv, hcv⟩

/-- Started at the first vertex, the first loop of `normalizeVertices` finds the upper
face of the bounding box. -/
theorem foldMax_isBoxMax (c : QVector3D → ℚ) (v0 : QVector3D) (vs : List QVector3D) :
    IsBoxMax c (v0 :: vs) (foldMax c (c v0) (v0 :: vs)) := by
  obtain ⟨_, h2, h3⟩ := foldMax_spec c (c v0) (v0 :: vs)
  refine ⟨?_, h2⟩
  rcases h3 with h3 | ⟨v, hv, hcv⟩
  · exact ⟨v0, List.mem_cons_self v0 vs, h3.symm⟩
  · exact ⟨v, hv, hcv⟩

/-- A mesh has one lower face per axis. -/
theorem IsBoxMin_unique (c : QVector3D → ℚ) (vs : List QVector3D) (a b : ℚ)
    (ha : IsBoxMin c vs a) (hb : IsBoxMin c vs b) : a = b := by
  obtain ⟨⟨va, hva, hca⟩, hla⟩ := ha
  obtain ⟨⟨vb, hvb, hcb⟩, hlb⟩ := hb
  have h1 := hla vb hvb
  have h2 := hlb va hva
  rw [hcb] at h1
  rw [hca] at h2
  exact le_antisymm h1 h2

/-- A mesh has one upper face per axis. -/
theorem IsBoxMax_unique (c : QVector3D → ℚ) (vs : List QVector3D) (a b : ℚ)
    (ha : IsBoxMax c vs a) (hb : IsBoxMax c vs b) : a = b := by
  obtain ⟨⟨va, hva, hca⟩, hla⟩ := ha
  obtain ⟨⟨vb, hvb, hcb⟩, hlb⟩ := hb
  have h1 := hla vb hvb
  have h2 := hlb va hva
  rw [hcb] at h1
  rw [hca] at h2
  exact le_antisymm h2 h1

/-- Mapping every vertex so that the coordinate goes through a monotone function maps
the lower face through that function. -/
theorem IsBoxMin_map (c : QVector3D → ℚ) (g : QVector3D → QVector3D) (f : ℚ → ℚ)
    (hf : Monotone f) (hg : ∀ v, c (g v) = f (c v)) (vs : List QVector3D) (lo : ℚ)
    (h : IsBoxMin c vs lo) : IsBoxMin c (vs.map g) (f lo) := by
  obtain ⟨⟨v, hv, hcv⟩, hl⟩ := h
  refine ⟨⟨g v, List.mem_map_of_mem g hv, by rw [hg, hcv]⟩, ?_⟩
  intro w hw
  obtain ⟨u, hu, rfl⟩ := List.mem_map.mp hw
  rw [hg]
  exact hf (hl u hu)

/-- Mapping every vertex so that the coordinate goes through a monotone function maps
the upper face through that function. -/
theorem IsBoxMax_map (c : QVector3D → ℚ) (g : QVector3D → QVector3D) (f : ℚ → ℚ)
    (hf : Monotone f) (hg : ∀ v, c (g v) = f (c v)) (vs : List QVector3D) (hi : ℚ)
    (h : IsBoxMax c vs hi) : IsBoxMax c (vs.map g) (f hi) := by
  obtain ⟨⟨v, hv, hcv⟩, hl⟩ := h
  refine ⟨⟨g v, List.mem_map_of_mem g hv, by rw [hg, hcv]⟩, ?_⟩
  intro w hw
  obtain ⟨u, hu, rfl⟩ := List.mem_map.mp hw
  rw [hg]
  exact hf (hl u hu)

/-- The coordinate map of the second loop of `normalizeVertices` is monotone when the
size is positive. -/
theorem normalize_coordinate_monotone (centre size : ℚ) (hs : 0 < size) :
    Monotone (fun t : ℚ => (t - centre) / size * 2.0) := by
  intro a b hab
  have h2 : (0 : ℚ) ≤ 2.0 := by norm_num
  exact mul_le_mul_of_nonneg_right
    (div_le_div_of_nonneg_right (sub_le_sub_right hab centre) hs.le) h2

/-- One axis of the normalisation: with lower face `lo0`, upper face `hi0`, the centre
at their midpoint and a positive size that is at least the extent, the result is
centred, lies in [-1, 1], and spans [-1, 1] if the extent is the size. -/
theorem normalizedOnAxis_of_box (c : QVector3D → ℚ) (g : QVector3D → QVector3D)
    (vs : List QVector3D) (lo0 hi0 size : ℚ) (hs : 0 < size)
    (hg : ∀ v, c (g v) = (c v - (lo0 + hi0) / 2.0) / size * 2.0)
    (hlo : IsBoxMin c vs lo0) (hhi : IsBoxMax c vs hi0) (hext : hi0 - lo0 ≤ size) :
    NormalizedOnAxis c vs (vs.map g) size := by
  have hmono := normalize_coordinate_monotone ((lo0 + hi0) / 2.0) size hs
  have hmin := IsBoxMin_map c g _ hmono hg vs lo0 hlo
  have hmax := IsBoxMax_map c g _ hmono hg vs hi0 hhi
  have hne : size ≠ 0 := ne_of_gt hs
  have e1 : (lo0 - (lo0 + hi0) / 2.0) / size * 2.0 = -((hi0 - lo0) / size) := by
    field_simp; ring
  have e2 : (hi0 - (lo0 + hi0) / 2.0) / size * 2.0 = (hi0 - lo0) / size := by
    field_simp; ring
  have hle : (hi0 - lo0) / size ≤ 1 := (div_le_one hs).mpr hext
  refine ⟨_, _, hmin, hmax, ?_, ?_, ?_, ?_⟩
  · simp only [e1, e2]; ring
  · simp only [e1]; linarith
  · simp only [e2]; exact hle
  · intro a b ha hb
    have ea := IsBoxMin_unique c vs _ _ ha hlo
    have eb := IsBoxMax_unique c vs _ _ hb hhi
    subst ea; subst eb
    refine ⟨hext, ?_⟩
    intro heq
    simp only [e1, e2, heq, div_self hne]
    exact ⟨trivial, trivial⟩

/-- The vertex list after `normalizeVertices` on a mesh with first vertex `v0`. -/
theorem normalizeVertices_cons (m : ViewerModel) (v0 : QVector3D) (vs : List QVector3D)
    (hm : m.vertices = v0 :: vs) :
    (normalizeVertices m).vertices =
      m.vertices.map (normalizePoint (center v0 m.vertices) (maxSize v0 m.vertices)) := by
  rw [normalizeVertices_vertices, hm]
  rfl

/-- The three axes of a normalised mesh, and the axis that has the largest extent. -/
theorem normalize_axes (v0 : QVector3D) (vs : List QVector3D)
    (hs : 0 < maxSize v0 (v0 :: vs)) :
    NormalizedOnAxis QVector3D.x (v0 :: vs)
        ((v0 :: vs).map (normalizePoint (center v0 (v0 :: vs)) (maxSize v0 (v0 :: vs))))
        (maxSize v0 (v0 :: vs)) ∧
      NormalizedOnAxis QVector3D.y (v0 :: vs)
        ((v0 :: vs).map (normalizePoint (center v0 (v0 :: vs)) (maxSize v0 (v0 :: vs))))
        (maxSize v0 (v0 :: vs)) ∧
      NormalizedOnAxis QVector3D.z (v0 :: vs)
        ((v0 :: vs).map (normalizePoint (center v0 (v0 :: vs)) (maxSize v0 (v0 :: vs))))
        (maxSize v0 (v0 :: vs)) := by
  refine ⟨?_, ?_, ?_⟩
  · exact normalizedOnAxis_of_box QVector3D.x _ (v0 :: vs) _ _ _ hs (fun _ => rfl)
      (foldMin_isBoxMin QVector3D.x v0 vs) (foldMax_isBoxMax QVector3D.x v0 vs)
      (le_max_left _ _)
  · exact normalizedOnAxis_of_box QVector3D.y _ (v0 :: vs) _ _ _ hs (fun _ => rfl)
      (foldMin_isBoxMin QVector3D.y v0 vs) (foldMax_isBoxMax QVector3D.y v0 vs)
      (le_trans (le_max_left _ _) (le_max_right _ _))
  · exact normalizedOnAxis_of_box QVector3D.z _ (v0 :: vs) _ _ _ hs (fun _ => rfl)
      (foldMin_isBoxMin QVector3D.z v0 vs) (foldMax_isBoxMax QVector3D.z v0 vs)
      (le_trans (le_max_right _ _) (le_max_right _ _))

/-- On a normalised axis every coordinate lies in [-1, 1]. -/
theorem NormalizedOnAxis_bound (c : QVector3D → ℚ) (original result : List QVector3D)
    (largest : ℚ) (h : NormalizedOnAxis c original result largest) :
    ∀ v ∈ result, -1 ≤ c v ∧ c v ≤ 1 := by
  obtain ⟨lo, hi, hmin, hmax, _, hlo, hhi, _⟩ := h
  intro v hv
  exact ⟨le_trans hlo (hmin.2 v hv), le_trans (hmax.2 v hv) hhi⟩

/-- C12: for every non-empty mesh whose largest bounding-box extent is positive, after
`normalizeVertices` the bounding box is centred at the origin on each axis (lower face
plus upper face is 0), an axis whose original extent is the largest spans exactly
[-1, 1], some axis has the largest extent, and every coordinate of every vertex lies in
[-1, 1]. -/
theorem normalizeVertices_bounding_box (m : ViewerModel) (v0 : QVector3D)
    (vs : List QVector3D) (hm : m.vertices = v0 :: vs)
    (hs : 0 < maxSize v0 m.vertices) :
    NormalizedOnAxis QVector3D.x m.vertices (normalizeVertices m).vertices
        (maxSize v0 m.vertices) ∧
      NormalizedOnAxis QVector3D.y m.vertices (normalizeVertices m).vertices
        (maxSize v0 m.vertices) ∧
      NormalizedOnAxis QVector3D.z m.vertices (normalizeVertices m).vertices
        (maxSize v0 m.vertices) ∧
      (∃ c lo0 hi0, (c = QVector3D.x ∨ c = QVector3D.y ∨ c = QVector3D.z) ∧
        IsBoxMin c m.vertices lo0 ∧ IsBoxMax c m.vertices hi0 ∧
        hi0 - lo0 = maxSize v0 m.vertices) ∧
      (∀ v ∈ (normalizeVertices m).vertices,
        (-1 ≤ v.x ∧ v.x ≤ 1) ∧ (-1 ≤ v.y ∧ v.y ≤ 1) ∧ (-1 ≤ v.z ∧ v.z ≤ 1)) := by
  rw [normalizeVertices_cons m v0 vs hm]
  rw [hm] at hs ⊢
  obtain ⟨hx, hy, hz⟩ := normalize_axes v0 vs hs
  refine ⟨hx, hy, hz, ?_, ?_⟩
  · have hmx := foldMin_isBoxMin QVector3D.x v0 vs
    have hMx := foldMax_isBoxMax QVector3D.x v0 vs
    have hmy := foldMin_isBoxMin QVector3D.y v0 vs
    have hMy := foldMax_isBoxMax QVector3D.y v0 vs
    have hmz := foldMin_isBoxMin QVector3D.z v0 vs
    have hMz := foldMax_isBoxMax QVector3D.z v0 vs
    unfold maxSize
    simp only []
    rcases max_choice (foldMax QVector3D.x v0.x (v0 :: vs) - foldMin QVector3D.x v0.x (v0 :: vs))
      (max (foldMax QVector3D.y v0.y (v0 :: vs) - foldMin QVector3D.y v0.y (v0 :: vs))
        (foldMax QVector3D.z v0.z (v0 :: vs) - foldMin QVector3D.z v0.z (v0 :: vs))) with h | h
    · exact ⟨QVector3D.x, _, _, Or.inl rfl, hmx, hMx, h.symm⟩
    · rcases max_choice
        (foldMax QVector3D.y v0.y (v0 :: vs) - foldMin QVector3D.y v0.y (v0 :: vs))
        (foldMax QVector3D.z v0.z (v0 :: vs) - foldMin QVector3D.z v0.z (v0 :: vs)) with h2 | h2
      · exact ⟨QVector3D.y, _, _, Or.inr (Or.inl rfl), hmy, hMy, by rw [h, h2]⟩
      · exact ⟨QVector3D.z, _, _, Or.inr (Or.inr rfl), hmz, hMz, by rw [h, h2]⟩
  · intro v hv
    exact ⟨NormalizedOnAxis_bound _ _ _ _ hx v hv, NormalizedOnAxis_bound _ _ _ _ hy v hv,
      NormalizedOnAxis_bound _ _ _ _ hz v hv⟩

/-- C12 at the mesh (0,0,0), (4,2,0): the largest extent is 4, on the x axis. -/
theorem normalizeVertices_bounding_box_witness :
    (0 : ℚ) < maxSize { x := 0, y := 0, z := 0 }
        [{ x := 0, y := 0, z := 0 }, { x := 4, y := 2, z := 0 }] ∧
      ∀ v ∈ (normalizeVertices
          { vertices := [{ x := 0, y := 0, z := 0 }, { x := 4, y := 2, z := 0 }] }).vertices,
        (-1 ≤ v.x ∧ v.x ≤ 1) ∧ (-1 ≤ v.y ∧ v.y ≤ 1) ∧ (-1 ≤ v.z ∧ v.z ≤ 1) := by
  have hs : (0 : ℚ) < maxSize { x := 0, y := 0, z := 0 }
      [{ x := 0, y := 0, z := 0 }, { x := 4, y := 2, z := 0 }] := by decide!
  exact ⟨hs, (normalizeVertices_bounding_box
    { vertices := [{ x := 0, y := 0, z := 0 }, { x := 4, y := 2, z := 0 }] }
    { x := 0, y := 0, z := 0 } [{ x := 4, y := 2, z := 0 }] rfl hs).2.2.2.2⟩

/-- The faces that the first loop of `normalizeVertices` finds on a mesh that was just
normalised on this axis: minus and plus the original extent over the size. -/
theorem normalized_faces (c : QVector3D → ℚ) (g : QVector3D → QVector3D)
    (v0 : QVector3D) (vs : List QVector3D) (lo0 hi0 size : ℚ) (hs : 0 < size)
    (hg : ∀ v, c (g v) = (c v - (lo0 + hi0) / 2.0) / size * 2.0)
    (hlo : IsBoxMin c (v0 :: vs) lo0) (hhi : IsBoxMax c (v0 :: vs) hi0) :
    foldMin c (c (g v0)) ((v0 :: vs).map g) = -((hi0 - lo0) / size) ∧
      foldMax c (c (g v0)) ((v0 :: vs).map g) = (hi0 - lo0) / size := by
  have hmono := normalize_coordinate_monotone ((lo0 + hi0) / 2.0) size hs
  have hmin := IsBoxMin_map c g _ hmono hg (v0 :: vs) lo0 hlo
  have hmax := IsBoxMax_map c g _ hmono hg (v0 :: vs) hi0 hhi
  have fmin := foldMin_isBoxMin c (g v0) (vs.map g)
  have fmax := foldMax_isBoxMax c (g v0) (vs.map g)
  rw [← List.map_cons] at fmin fmax
  have hne : size ≠ 0 := ne_of_gt hs
  have e1 : (lo0 - (lo0 + hi0) / 2.0) / size * 2.0 = -((hi0 - lo0) / size) := by
    field_simp; ring
  have e2 : (hi0 - (lo0 + hi0) / 2.0) / size * 2.0 = (hi0 - lo0) / size := by
    field_simp; ring
  constructor
  · rw [IsBoxMin_unique c _ _ _ fmin hmin]; exact e1
  · rw [IsBoxMax_unique c _ _ _ fmax hmax]; exact e2

/-- A mesh that was just normalised has its centre at the origin and largest extent 2. -/
theorem normalized_center_and_size (v0 : QVector3D) (vs : List QVector3D)
    (hs : 0 < maxSize v0 (v0 :: vs)) :
    center (normalizePoint (center v0 (v0 :: vs)) (maxSize v0 (v0 :: vs)) v0)
        ((v0 :: vs).map (normalizePoint (center v0 (v0 :: vs)) (maxSize v0 (v0 :: vs))))
        = { x := 0, y := 0, z := 0 } ∧
      maxSize (normalizePoint (center v0 (v0 :: vs)) (maxSize v0 (v0 :: vs)) v0)
        ((v0 :: vs).map (normalizePoint (center v0 (v0 :: vs)) (maxSize v0 (v0 :: vs))))
        = 2 := by
  have hx := normalized_faces QVector3D.x
    (normalizePoint (center v0 (v0 :: vs)) (maxSize v0 (v0 :: vs))) v0 vs _ _ _ hs
    (fun _ => rfl) (foldMin_isBoxMin QVector3D.x v0 vs) (foldMax_isBoxMax QVector3D.x v0 vs)
  have hy := normalized_faces QVector3D.y
    (normalizePoint (center v0 (v0 :: vs)) (maxSize v0 (v0 :: vs))) v0 vs _ _ _ hs
    (fun _ => rfl) (foldMin_isBoxMin QVector3D.y v0 vs) (foldMax_isBoxMax QVector3D.y v0 vs)
  have hz := normalized_faces QVector3D.z
    (normalizePoint (center v0 (v0 :: vs)) (maxSize v0 (v0 :: vs))) v0 vs _ _ _ hs
    (fun _ => rfl) (foldMin_isBoxMin QVector3D.z v0 vs) (foldMax_isBoxMax QVector3D.z v0 vs)
  have hm : max (foldMax QVector3D.x v0.x (v0 :: vs) - foldMin QVector3D.x v0.x (v0 :: vs))
      (max (foldMax QVector3D.y v0.y (v0 :: vs) - foldMin QVector3D.y v0.y (v0 :: vs))
        (foldMax QVector3D.z v0.z (v0 :: vs) - foldMin QVector3D.z v0.z (v0 :: vs)))
      = maxSize v0 (v0 :: vs) := rfl
  generalize normalizePoint (center v0 (v0 :: vs)) (maxSize v0 (v0 :: vs)) = g at hx hy hz ⊢
  generalize maxSize v0 (v0 :: vs) = s at hs hx hy hz hm ⊢
  have hne : s ≠ 0 := ne_of_gt hs
  constructor
  · unfold center
    rw [hx.1, hx.2, hy.1, hy.2, hz.1, hz.2]
    simp
  · unfold maxSize
    simp only []
    rw [hx.1, hx.2, hy.1, hy.2, hz.1, hz.2]
    have hsum : ∀ a : ℚ, a / s - -(a / s) = a * (2 / s) := by intro a; ring
    simp only [hsum]
    have hpos : (0 : ℚ) ≤ 2 / s := by positivity
    rw [← max_mul_of_nonneg _ _ hpos, ← max_mul_of_nonneg _ _ hpos, hm]
    field_simp

/-- The second loop of `normalizeVertices` with centre 0 and size 2 changes no vertex. -/
theorem normalizePoint_origin_two (v : QVector3D) :
    normalizePoint { x := 0, y := 0, z := 0 } 2 v = v := by
  cases v
  simp only [normalizePoint, sub_zero, QVector3D.mk.injEq]
  refine ⟨?_, ?_, ?_⟩ <;> norm_num

/-- C13, as stated, fails: the mesh (-1, -1/2, 0), (1, 1/2, 0) is the normalisation of
(0,0,0), (4,2,0); it is no cube, its y coordinates spanning [-1/2, 1/2] only; and a
second `normalizeVertices` leaves its coordinates as they are. -/
theorem normalizeVertices_second_pass_changes_nothing :
    (normalizeVertices
        { vertices := [{ x := 0, y := 0, z := 0 }, { x := 4, y := 2, z := 0 }] }).vertices =
        [{ x := -1, y := -1 / 2, z := 0 }, { x := 1, y := 1 / 2, z := 0 }] ∧
      (normalizeVertices
        { vertices := [{ x := -1, y := -1 / 2, z := 0 }, { x := 1, y := 1 / 2, z := 0 }] }).vertices =
        [{ x := -1, y := -1 / 2, z := 0 }, { x := 1, y := 1 / 2, z := 0 }] := by
  decide!

/-- C13, amended: in exact arithmetic normalisation is idempotent: for every mesh with a
positive largest extent, a cube or not, applying `normalizeVertices` a second time
changes no vertex coordinate, because the normalised mesh has its centre at the origin
and largest extent 2. -/
theorem normalizeVertices_idempotent (m : ViewerModel)
    (hs : 0 < maxSize (m.vertices.headD {}) m.vertices) :
    normalizeVertices (normalizeVertices m) = normalizeVertices m := by
  rcases hm : m.vertices with _ | ⟨v0, vs⟩
  · simp [normalizeVertices, hm]
  · rw [hm] at hs
    simp only [List.headD_cons] at hs
    have h1 : normalizeVertices m =
        { m with vertices :=
            (v0 :: vs).map (normalizePoint (center v0 (v0 :: vs)) (maxSize v0 (v0 :: vs))) } := by
      simp [normalizeVertices, hm]
    obtain ⟨hc, hsz⟩ := normalized_center_and_size v0 vs hs
    rw [h1]
    rw [normalizeVertices.eq_def]
    simp only [List.map_cons] at hc hsz ⊢
    rw [hc, hsz]
    simp [normalizePoint_origin_two]

/-- C13 amended, at the mesh (0,0,0), (4,2,0), whose largest extent is 4. -/
theorem normalizeVertices_idempotent_witness :
    (0 : ℚ) < maxSize (([{ x := 0, y := 0, z := 0 }, { x := 4, y := 2, z := 0 }] :
        List QVector3D).headD {}) [{ x := 0, y := 0, z := 0 }, { x := 4, y := 2, z := 0 }] ∧
      normalizeVertices (normalizeVertices
          { vertices := [{ x := 0, y := 0, z := 0 }, { x := 4, y := 2, z := 0 }] }) =
        normalizeVertices
          { vertices := [{ x := 0, y := 0, z := 0 }, { x := 4, y := 2, z := 0 }] } := by
  have hs : (0 : ℚ) < maxSize (([{ x := 0, y := 0, z := 0 }, { x := 4, y := 2, z := 0 }] :
      List QVector3D).headD {}) [{ x := 0, y := 0, z := 0 }, { x := 4, y := 2, z := 0 }] := by
    decide!
  exact ⟨hs, normalizeVertices_idempotent
    { vertices := [{ x := 0, y := 0, z := 0 }, { x := 4, y := 2, z := 0 }] } hs⟩

/-! ## Loading: the tetrahedron scenario -/

/-- C14, as stated, fails: for the text with the vertex lines (0,0,0), (2,0,0), (0,2,0),
(0,0,2) the centre that the normaliser computes before shifting is (1, 1, 1), the
midpoint of the bounding box, and not (0.5, 0.5, 0.5). -/
theorem tetrahedron_center_is_not_half :
    specVertices "v 0 0 0\nv 2 0 0\nv 0 2 0\nv 0 0 2\nf 1 2 3\n".toList =
        [{ x := 0, y := 0, z := 0 }, { x := 2, y := 0, z := 0 }, { x := 0, y := 2, z := 0 },
         { x := 0, y := 0, z := 2 }] ∧
      center { x := 0, y := 0, z := 0 }
          (specVertices "v 0 0 0\nv 2 0 0\nv 0 2 0\nv 0 0 2\nf 1 2 3\n".toList) =
        { x := 1, y := 1, z := 1 } ∧
      center { x := 0, y := 0, z := 0 }
          (specVertices "v 0 0 0\nv 2 0 0\nv 0 2 0\nv 0 0 2\nf 1 2 3\n".toList) ≠
        { x := 0.5, y := 0.5, z := 0.5 } := by
  decide!

/-- C14, amended: loading the text with the vertex lines (0,0,0), (2,0,0), (0,2,0),
(0,0,2) and the face line `f 1 2 3` completes normally with 4 vertices and the index
list [0,1,2]; the centre the normaliser computes before shifting is (1, 1, 1) and the
largest extent is 2; after normalisation the vertices are (-1,-1,-1), (1,-1,-1),
(-1,1,-1), (-1,-1,1), so that the extent of every axis, the longest among them, is
exactly 2.0. -/
theorem tetrahedron_load :
    (loadOBJ {} (some "v 0 0 0\nv 2 0 0\nv 0 2 0\nv 0 0 2\nf 1 2 3\n")).2 = LoadStatus.loaded ∧
      (loadOBJ {} (some "v 0 0 0\nv 2 0 0\nv 0 2 0\nv 0 0 2\nf 1 2 3\n")).1.vertices.length = 4 ∧
      (loadOBJ {} (some "v 0 0 0\nv 2 0 0\nv 0 2 0\nv 0 0 2\nf 1 2 3\n")).1.facets = [0, 1, 2] ∧
      center { x := 0, y := 0, z := 0 }
          (specVertices "v 0 0 0\nv 2 0 0\nv 0 2 0\nv 0 0 2\nf 1 2 3\n".toList) =
        { x := 1, y := 1, z := 1 } ∧
      maxSize { x := 0, y := 0, z := 0 }
          (specVertices "v 0 0 0\nv 2 0 0\nv 0 2 0\nv 0 0 2\nf 1 2 3\n".toList) = 2 ∧
      (loadOBJ {} (some "v 0 0 0\nv 2 0 0\nv 0 2 0\nv 0 0 2\nf 1 2 3\n")).1.vertices =
        [{ x := -1, y := -1, z := -1 }, { x := 1, y := -1, z := -1 },
         { x := -1, y := 1, z := -1 }, { x := -1, y := -1, z := 1 }] ∧
      maxSize { x := -1, y := -1, z := -1 }
          (loadOBJ {} (some "v 0 0 0\nv 2 0 0\nv 0 2 0\nv 0 0 2\nf 1 2 3\n")).1.vertices
        = 2.0 := by
  decide!

/-! ## Text input: `makeFloat` -/

/-- The characters the regular expression `[^0-9.]` does not match are the decimal
digits and the point. -/
theorem digit_range_iff (c : Char) : ('0' ≤ c ∧ c ≤ '9') ↔ c.isDigit = true := by
  simp only [Char.isDigit, Bool.and_eq_true, decide_eq_true_eq, Char.le_def, UInt32.le_def]
  constructor
  · rintro ⟨h1, h2⟩; exact ⟨h1, h2⟩
  · rintro ⟨h1, h2⟩; exact ⟨h1, h2⟩

/-- Removing every match of `[^0-9.]` keeps, in order, the digits and points. -/
theorem removeNotDigitOrPoint_eq_filter (s : List Char) :
    removeNotDigitOrPoint s = s.filter (fun c => c.isDigit || c = '.') := by
  induction s with
  | nil => rfl
  | cons c cs ih =>
    rw [removeNotDigitOrPoint, ih]
    by_cases h : c.isDigit = true ∨ c = '.'
    · have h2 : ('0' ≤ c ∧ c ≤ '9') ∨ c = '.' := by rwa [digit_range_iff]
      rw [if_pos h2, List.filter_cons_of_pos (by simpa using h)]
    · have h2 : ¬ (('0' ≤ c ∧ c ≤ '9') ∨ c = '.') := by rwa [digit_range_iff]
      rw [if_neg h2, List.filter_cons_of_neg (by simpa using h)]

/-- C20: `makeFloat` removes from its input every character that is not a decimal digit
or '.', keeping the remaining characters in order, and converts what is left with
`toFloat`; an empty input, or one with no digit and no '.', gives 0.0, and "123.45"
gives 123.45. -/
theorem makeFloat_strips_then_parses (s : List Char) :
    removeNotDigitOrPoint s = s.filter (fun c => c.isDigit || c = '.') ∧
      makeFloat s = QString_toFloat (s.filter (fun c => c.isDigit || c = '.')) ∧
      ((∀ c ∈ s, ¬ (c.isDigit = true ∨ c = '.')) → makeFloat s = 0) ∧
      makeFloat [] = 0 ∧
      makeFloat "123.45".toList = 123.45 := by
  refine ⟨removeNotDigitOrPoint_eq_filter s, ?_, ?_, by decide!, by decide!⟩
  · simp only [makeFloat, removeNotDigitOrPoint_eq_filter]
  · intro h
    have hf : s.filter (fun c => c.isDigit || c = '.') = [] := by
      rw [List.filter_eq_nil_iff]
      intro c hc
      simpa using h c hc
    simp only [makeFloat, removeNotDigitOrPoint_eq_filter, hf]
    decide!

/-- C20 at concrete inputs: a text of letters gives 0, and a number with a unit loses
the unit. -/
theorem makeFloat_strips_then_parses_witness :
    (∀ c ∈ "abc px".toList, ¬ (c.isDigit = true ∨ c = '.')) ∧
      makeFloat "abc px".toList = 0 ∧
      removeNotDigitOrPoint "12.5 px".toList = "12.5".toList := by
  have h : ∀ c ∈ "abc px".toList, ¬ (c.isDigit = true ∨ c = '.') := by decide
  refine ⟨h, (makeFloat_strips_then_parses "abc px".toList).2.2.1 h, ?_⟩
  rw [(makeFloat_strips_then_parses "12.5 px".toList).1]
  decide

/-! ## Style persistence: the characters written -/

/-- One line of the scan gives the same mesh and the same exception from two states
with the same mesh. -/
theorem scanLine_mesh_congr (line : List Char) (m1 m2 : ViewerModel)
    (hv : m1.vertices = m2.vertices) (hf : m1.facets = m2.facets) :
    (scanLine line m1).1.vertices = (scanLine line m2).1.vertices ∧
      (scanLine line m1).1.facets = (scanLine line m2).1.facets ∧
      (scanLine line m1).2 = (scanLine line m2).2 := by
  unfold scanLine
  split_ifs
  · simp [hv, hf]
  · simp [hv, hf]
  · exact ⟨hv, hf, rfl⟩

/-- The line loop gives the same mesh and the same exception from two states with the
same mesh. -/
theorem scanLines_mesh_congr (lines : List (List Char)) (m1 m2 : ViewerModel)
    (hv : m1.vertices = m2.vertices) (hf : m1.facets = m2.facets) :
    (scanLines lines m1).1.vertices = (scanLines lines m2).1.vertices ∧
      (scanLines lines m1).1.facets = (scanLines lines m2).1.facets ∧
      (scanLines lines m1).2 = (scanLines lines m2).2 := by
  induction lines generalizing m1 m2 with
  | nil => exact ⟨hv, hf, rfl⟩
  | cons line rest ih =>
    have h := scanLine_mesh_congr line m1 m2 hv hf
    rw [scanLines, scanLines]
    rcases h1 : scanLine line m1 with ⟨a1, _ | e1⟩ <;>
      rcases h2 : scanLine line m2 with ⟨a2, _ | e2⟩ <;>
      rw [h1, h2] at h <;> simp only [] at h ⊢
    · exact ih a1 a2 h.1 h.2.1
    · exact absurd h.2.2 (by simp)
    · exact absurd h.2.2 (by simp)
    · exact h

/-- The vertex list after normalisation depends on the vertex list only. -/
theorem normalizeVertices_vertices_congr (m1 m2 : ViewerModel)
    (hv : m1.vertices = m2.vertices) :
    (normalizeVertices m1).vertices = (normalizeVertices m2).vertices := by
  rw [normalizeVertices_vertices, normalizeVertices_vertices, hv]

/-- C21: a load replaces the mesh wholesale: for the same file contents and any two
prior model states (different prior vertices, indices, transform and style), `loadOBJ`
ends the same way, and the vertex list, the index list and the TransformState after it
are identical; nothing of the previously loaded mesh survives. -/
theorem loadOBJ_independent_of_prior_state (m1 m2 : ViewerModel) (content : String) :
    (loadOBJ m1 (some content)).2 = (loadOBJ m2 (some content)).2 ∧
      (loadOBJ m1 (some content)).1.vertices = (loadOBJ m2 (some content)).1.vertices ∧
      (loadOBJ m1 (some content)).1.facets = (loadOBJ m2 (some content)).1.facets ∧
      (loadOBJ m1 (some content)).1.affine_transform =
        (loadOBJ m2 (some content)).1.affine_transform := by
  have ht : (loadOBJ m1 (some content)).1.affine_transform =
      (loadOBJ m2 (some content)).1.affine_transform := by
    rw [(loadOBJ_transform_and_style m1 _).1, (loadOBJ_transform_and_style m2 _).1]
  have key : (loadOBJ m1 (some content)).2 = (loadOBJ m2 (some content)).2 ∧
      (loadOBJ m1 (some content)).1.vertices = (loadOBJ m2 (some content)).1.vertices ∧
      (loadOBJ m1 (some content)).1.facets = (loadOBJ m2 (some content)).1.facets := by
    rw [loadOBJ_some, loadOBJ_some]
    have h := scanLines_mesh_congr (getlines content.toList)
      { vertices := [], facets := [], affine_transform := {},
        modelDefinition := m1.modelDefinition }
      { vertices := [], facets := [], affine_transform := {},
        modelDefinition := m2.modelDefinition } rfl rfl
    rcases h1 : scanLines (getlines content.toList)
      { vertices := [], facets := [], affine_transform := {},
        modelDefinition := m1.modelDefinition } with ⟨a1, _ | e1⟩
    · rcases h2 : scanLines (getlines content.toList)
        { vertices := [], facets := [], affine_transform := {},
          modelDefinition := m2.modelDefinition } with ⟨a2, _ | e2⟩
      · rw [h1, h2] at h
        refine ⟨rfl, normalizeVertices_vertices_congr a1 a2 h.1, ?_⟩
        simp only []
        rw [(normalizeVertices_keeps_rest a1).2.2, (normalizeVertices_keeps_rest a2).2.2]
        exact h.2.1
      · rw [h1, h2] at h
        exact absurd h.2.2 (by simp)
    · rcases h2 : scanLines (getlines content.toList)
        { vertices := [], facets := [], affine_transform := {},
          modelDefinition := m2.modelDefinition } with ⟨a2, _ | e2⟩
      · rw [h1, h2] at h
        exact absurd h.2.2 (by simp)
      · rw [h1, h2] at h
        have he : e1 = e2 := Option.some.inj h.2.2
        subst he
        exact ⟨rfl, h.1, h.2.1⟩
  exact ⟨key.1, key.2.1, key.2.2, ht⟩

/-! ## Projection and mouse drags -/

/-- C22: `setProjection(mode)` sets projectionType to the given mode and resets nothing:
the rotation angles, translations, scaleFactor and fov after the call equal their
values before it, and so do mesh and style, for every state and both modes. -/
theorem setProjection_sets_mode_only (m : ViewerModel) (mode : ProjectionType) :
    setProjection m mode =
      { m with affine_transform := { m.affine_transform with projectionType := mode } } ∧
    (setProjection m mode).affine_transform.projectionType = mode ∧
    (setProjection m mode).affine_transform.rotateAngleX = m.affine_transform.rotateAngleX ∧
    (setProjection m mode).affine_transform.rotateAngleY = m.affine_transform.rotateAngleY ∧
    (setProjection m mode).affine_transform.rotateAngleZ = m.affine_transform.rotateAngleZ ∧
    (setProjection m mode).affine_transform.translateX = m.affine_transform.translateX ∧
    (setProjection m mode).affine_transform.translateY = m.affine_transform.translateY ∧
    (setProjection m mode).affine_transform.translateZ = m.affine_transform.translateZ ∧
    (setProjection m mode).affine_transform.scaleFactor = m.affine_transform.scaleFactor ∧
    (setProjection m mode).affine_transform.fov = m.affine_transform.fov := by
  cases mode <;> simp [setProjection]

/-- C23: for every state and every integer delta (dx, dy), `MouseButtonMove` adds dy to
rotateAngleX and dx to rotateAngleY and leaves rotateAngleZ unchanged; `MouseWheelMove`
adds dx to rotateAngleZ, ignores dy and leaves rotateAngleX and rotateAngleY unchanged;
neither changes translation, scaleFactor, fov, projection type, mesh or style. -/
theorem mouse_moves_rotate (m : ViewerModel) (dx dy : Int) :
    MouseButtonMove m { x := dx, y := dy } =
      { m with affine_transform :=
          { m.affine_transform with
            rotateAngleX := m.affine_transform.rotateAngleX + (dy : ℚ)
            rotateAngleY := m.affine_transform.rotateAngleY + (dx : ℚ) } } ∧
    MouseWheelMove m { x := dx, y := dy } =
      { m with affine_transform :=
          { m.affine_transform with
            rotateAngleZ := m.affine_transform.rotateAngleZ + (dx : ℚ) } } ∧
    (MouseButtonMove m { x := dx, y := dy }).affine_transform.rotateAngleZ =
      m.affine_transform.rotateAngleZ ∧
    (∀ dy2 : Int, MouseWheelMove m { x := dx, y := dy2 } = MouseWheelMove m { x := dx, y := dy }) ∧
    ((MouseButtonMove m { x := dx, y := dy }).affine_transform.translateX =
        m.affine_transform.translateX ∧
      (MouseButtonMove m { x := dx, y := dy }).affine_transform.translateY =
        m.affine_transform.translateY ∧
      (MouseButtonMove m { x := dx, y := dy }).affine_transform.translateZ =
        m.affine_transform.translateZ ∧
      (MouseButtonMove m { x := dx, y := dy }).affine_transform.scaleFactor =
        m.affine_transform.scaleFactor ∧
      (MouseButtonMove m { x := dx, y := dy }).affine_transform.fov = m.affine_transform.fov ∧
      (MouseButtonMove m { x := dx, y := dy }).affine_transform.projectionType =
        m.affine_transform.projectionType) ∧
    ((MouseWheelMove m { x := dx, y := dy }).affine_transform.rotateAngleX =
        m.affine_transform.rotateAngleX ∧
      (MouseWheelMove m { x := dx, y := dy }).affine_transform.rotateAngleY =
        m.affine_transform.rotateAngleY ∧
      (MouseWheelMove m { x := dx, y := dy }).affine_transform.translateX =
        m.affine_transform.translateX ∧
      (MouseWheelMove m { x := dx, y := dy }).affine_transform.translateY =
        m.affine_transform.translateY ∧
      (MouseWheelMove m { x := dx, y := dy }).affine_transform.translateZ =
        m.affine_transform.translateZ ∧
      (MouseWheelMove m { x := dx, y := dy }).affine_transform.scaleFactor =
        m.affine_transform.scaleFactor ∧
      (MouseWheelMove m { x := dx, y := dy }).affine_transform.fov = m.affine_transform.fov ∧
      (MouseWheelMove m { x := dx, y := dy }).affine_transform.projectionType =
        m.affine_transform.projectionType) := by
  refine ⟨rfl, rfl, rfl, fun _ => rfl, ⟨rfl, rfl, rfl, rfl, rfl, rfl⟩,
    ⟨rfl, rfl, rfl, rfl, rfl, rfl, rfl, rfl⟩⟩

/-! ## Facet width: the step down from 0 and the floor -/

/-- C24: when the facet width is exactly 0, `setFacetWidth(scaleMinus)` sets the width
to 0.005, the value `setFacetWidth(scalePlus)` gives there, and a second
`setFacetWidth(scaleMinus)` gives 0.0045. -/
theorem setFacetWidth_minus_from_zero (m : ViewerModel)
    (h : m.modelDefinition.facetWidth = 0) :
    (setFacetWidth m ScaleType.scaleMinus).modelDefinition.facetWidth = 0.005 ∧
      (setFacetWidth m ScaleType.scaleMinus).modelDefinition.facetWidth =
        (setFacetWidth m ScaleType.scalePlus).modelDefinition.facetWidth ∧
      (setFacetWidth (setFacetWidth m ScaleType.scaleMinus)
        ScaleType.scaleMinus).modelDefinition.facetWidth = 0.0045 := by
  refine ⟨?_, ?_, ?_⟩
  · simp [setFacetWidth, h]
  · simp [setFacetWidth, h]
  · simp [setFacetWidth, h]
    norm_num

/-- C24 at the state right after `setDefault(1)`. -/
theorem setFacetWidth_minus_from_zero_witness :
    (setDefault (ViewerModel.mk [] [] {} (ModelDefinition.mk {} 3 {} VerticeType.Circle 9 {}))
        1).modelDefinition.facetWidth = 0 ∧
      (setFacetWidth (setDefault
        (ViewerModel.mk [] [] {} (ModelDefinition.mk {} 3 {} VerticeType.Circle 9 {})) 1)
        ScaleType.scaleMinus).modelDefinition.facetWidth = 0.005 ∧
      (setFacetWidth (setFacetWidth (setDefault
        (ViewerModel.mk [] [] {} (ModelDefinition.mk {} 3 {} VerticeType.Circle 9 {})) 1)
        ScaleType.scaleMinus) ScaleType.scaleMinus).modelDefinition.facetWidth = 0.0045 := by
  have h0 : (setDefault
      (ViewerModel.mk [] [] {} (ModelDefinition.mk {} 3 {} VerticeType.Circle 9 {}))
      1).modelDefinition.facetWidth = 0 := by decide!
  have k := setFacetWidth_minus_from_zero _ h0
  exact ⟨h0, k.1, k.2.2⟩

/-- One `setFacetWidth` call keeps a width that is at least 0.0005 at least 0.0005. -/
theorem setFacetWidth_keeps_floor (m : ViewerModel) (f : ScaleType)
    (h : m.modelDefinition.facetWidth ≥ 0.0005) :
    (setFacetWidth m f).modelDefinition.facetWidth ≥ 0.0005 := by
  have h0 : m.modelDefinition.facetWidth ≠ 0 := by
    intro h0; rw [h0] at h; norm_num at h
  cases f with
  | scalePlus =>
    simp only [setFacetWidth, if_true, if_neg h0]
    norm_num at h ⊢
    linarith
  | scaleMinus =>
    by_cases hg : m.modelDefinition.facetWidth ≥ 0.001
    · simp [setFacetWidth, h0, hg]
      norm_num at hg ⊢
      linarith
    · simp [setFacetWidth, h0, hg]
      norm_num at h ⊢
      exact h

/-- A sequence of `setFacetWidth` calls keeps a width that is at least 0.0005 at least
0.0005. -/
theorem setFacetWidth_calls_keep_floor (calls : List ScaleType) (m : ViewerModel)
    (h : m.modelDefinition.facetWidth ≥ 0.0005) :
    (calls.foldl setFacetWidth m).modelDefinition.facetWidth ≥ 0.0005 := by
  induction calls generalizing m with
  | nil => exact h
  | cons c rest ih => exact ih _ (setFacetWidth_keeps_floor m c h)

/-- C27: starting from facet width 0, in every state reached by a finite sequence of
`setFacetWidth(scalePlus)` and `setFacetWidth(scaleMinus)` calls that has at least one
call, the width is non-zero and at least 0.0005; once the width has left 0 no further
calls return it to 0; and a '-' applied in such a state at a width below 0.001 is a
no-op. -/
theorem facetWidth_never_returns_to_zero (m : ViewerModel) (first : ScaleType)
    (calls more : List ScaleType) (h : m.modelDefinition.facetWidth = 0) :
    ((first :: calls).foldl setFacetWidth m).modelDefinition.facetWidth ≠ 0 ∧
      ((first :: calls).foldl setFacetWidth m).modelDefinition.facetWidth ≥ 0.0005 ∧
      (more.foldl setFacetWidth
        ((first :: calls).foldl setFacetWidth m)).modelDefinition.facetWidth ≠ 0 ∧
      (((first :: calls).foldl setFacetWidth m).modelDefinition.facetWidth < 0.001 →
        setFacetWidth ((first :: calls).foldl setFacetWidth m) ScaleType.scaleMinus =
          (first :: calls).foldl setFacetWidth m) := by
  have hfirst : (setFacetWidth m first).modelDefinition.facetWidth ≥ 0.0005 := by
    cases first <;> simp [setFacetWidth, h] <;> norm_num
  have hfloor : ((first :: calls).foldl setFacetWidth m).modelDefinition.facetWidth ≥ 0.0005 :=
    setFacetWidth_calls_keep_floor calls _ hfirst
  have hne : ∀ s : ViewerModel, s.modelDefinition.facetWidth ≥ 0.0005 →
      s.modelDefinition.facetWidth ≠ 0 := by
    intro s hs h0; rw [h0] at hs; norm_num at hs
  refine ⟨hne _ hfloor, hfloor, hne _ (setFacetWidth_calls_keep_floor more _ hfloor), ?_⟩
  intro hlt
  have h0 := hne _ hfloor
  generalize (first :: calls).foldl setFacetWidth m = s at hlt h0 ⊢
  have h2 : ¬ s.modelDefinition.facetWidth ≥ 0.001 := not_le.mpr hlt
  simp [setFacetWidth, h0]
  intro h3
  exact absurd h3 (by simpa using h2)

/-- C27 from the default style: one '+' and nine '-' reach the width 0.0005, where a
further '-' changes nothing. -/
theorem facetWidth_never_returns_to_zero_witness :
    (freshModel {}).modelDefinition.facetWidth = 0 ∧
      ((ScaleType.scalePlus :: List.replicate 9 ScaleType.scaleMinus).foldl setFacetWidth
        (freshModel {})).modelDefinition.facetWidth = 0.0005 ∧
      setFacetWidth ((ScaleType.scalePlus :: List.replicate 9 ScaleType.scaleMinus).foldl
          setFacetWidth (freshModel {})) ScaleType.scaleMinus =
        (ScaleType.scalePlus :: List.replicate 9 ScaleType.scaleMinus).foldl setFacetWidth
          (freshModel {}) := by
  have hw : ((ScaleType.scalePlus :: List.replicate 9 ScaleType.scaleMinus).foldl setFacetWidth
      (freshModel {})).modelDefinition.facetWidth = 0.0005 := by decide!
  have k := facetWidth_never_returns_to_zero (freshModel {}) ScaleType.scalePlus
    (List.replicate 9 ScaleType.scaleMinus) [] rfl
  exact ⟨rfl, hw, k.2.2.2 (by rw [hw]; norm_num)⟩

/-! ## Face indices: the unsigned subtraction -/

/-- C26: a face token whose numeric part is a decimal numeral `n` that fits
`unsigned long` is not rejected, also for `n = 0`: the index pushed is `(n - 1) mod 2^32`,
the subtraction being done in unsigned arithmetic; for `0` that is 4294967295, and the
text `f 0` loads to normal completion with that index. -/
theorem faceIndex_unsigned_wrap (token : List Char) (hne : numericHead token ≠ [])
    (hd : (numericHead token).all Char.isDigit = true)
    (hv : digitsValue (numericHead token) < 2 ^ 64) :
    (∃ index : Nat, faceIndex token = Except.ok index ∧
      (index : Int) = ((digitsValue (numericHead token) : Int) - 1) % 2 ^ 32) ∧
    faceIndex "0".toList = Except.ok 4294967295 ∧
    (loadOBJ {} (some "f 0\n")).2 = LoadStatus.loaded ∧
    (loadOBJ {} (some "f 0\n")).1.facets = [4294967295] := by
  refine ⟨?_, by rfl, by decide, by decide⟩
  have hs := stoul_digits (numericHead token) hne hd hv
  rw [numericHead_eq_takeWhile] at hs
  have hf : faceIndex token = Except.ok
      (((digitsValue (numericHead token) + 2 ^ 64 - 1) % 2 ^ 64) % 2 ^ 32) := by
    unfold faceIndex
    rw [hs, ← numericHead_eq_takeWhile]
  refine ⟨_, hf, ?_⟩
  generalize digitsValue (numericHead token) = n at hv
  norm_num at hv ⊢
  omega

/-- C26 at the tokens `0/1/1` and `4294967297`: the indices 4294967295 and 0. -/
theorem faceIndex_unsigned_wrap_witness :
    (∃ index : Nat, faceIndex "0/1/1".toList = Except.ok index ∧ (index : Int) = (0 - 1) % 2 ^ 32) ∧
      faceIndex "4294967297".toList = Except.ok 0 := by
  have k := (faceIndex_unsigned_wrap "0/1/1".toList (by decide) (by decide) (by decide)).1
  have hn : digitsValue (numericHead "0/1/1".toList) = 0 := by decide
  rw [hn] at k
  exact ⟨k, by rfl⟩

/-! ## Vertex width: the reachable values -/

/-- The width after one `setVerticeWidth` call depends on the width before it only. -/
theorem setVerticeWidth_width_congr (m1 m2 : ViewerModel) (f : ScaleType)
    (h : m1.modelDefinition.verticeWidth = m2.modelDefinition.verticeWidth) :
    (setVerticeWidth m1 f).modelDefinition.verticeWidth =
      (setVerticeWidth m2 f).modelDefinition.verticeWidth := by
  cases f
  · simp only [setVerticeWidth, if_true, h]
    split_ifs <;> simp [h]
  · simp only [setVerticeWidth, h]
    simp only [reduceCtorEq, if_false, if_true]
    split_ifs <;> simp [h]

/-- The width after a sequence of `setVerticeWidth` calls depends on the width before
it only. -/
theorem setVerticeWidth_calls_congr (calls : List ScaleType) (m1 m2 : ViewerModel)
    (h : m1.modelDefinition.verticeWidth = m2.modelDefinition.verticeWidth) :
    (calls.foldl setVerticeWidth m1).modelDefinition.verticeWidth =
      (calls.foldl setVerticeWidth m2).modelDefinition.verticeWidth := by
  induction calls generalizing m1 m2 with
  | nil => exact h
  | cons c rest ih => exact ih _ _ (setVerticeWidth_width_congr m1 m2 c h)

/-- One `setVerticeWidth` call keeps the width an integer from 1 to 13. -/
theorem setVerticeWidth_keeps_integer (m : ViewerModel) (f : ScaleType)
    (h : ∃ n : Nat, 1 ≤ n ∧ n ≤ 13 ∧ m.modelDefinition.verticeWidth = n) :
    ∃ n : Nat, 1 ≤ n ∧ n ≤ 13 ∧ (setVerticeWidth m f).modelDefinition.verticeWidth = n := by
  obtain ⟨n, h1, h2, hw⟩ := h
  cases f with
  | scalePlus =>
    by_cases hg : n ≤ 12
    · refine ⟨n + 1, by omega, by omega, ?_⟩
      have hq : m.modelDefinition.verticeWidth ≤ 12.0 := by
        rw [hw]; norm_num; exact_mod_cast hg
      have hstep : (setVerticeWidth m ScaleType.scalePlus).modelDefinition.verticeWidth =
          m.modelDefinition.verticeWidth + 1.0 := by
        simp only [setVerticeWidth, if_true, if_pos hq]
      rw [hstep, hw]
      push_cast; norm_num
    · refine ⟨n, h1, h2, ?_⟩
      have hq : ¬ m.modelDefinition.verticeWidth ≤ 12.0 := by
        rw [hw]; norm_num; exact_mod_cast (not_le.mp hg)
      have hstep : setVerticeWidth m ScaleType.scalePlus = m := by
        simp only [setVerticeWidth, if_true, if_neg hq]
      rw [hstep, hw]
  | scaleMinus =>
    by_cases hg : 2 ≤ n
    · refine ⟨n - 1, by omega, by omega, ?_⟩
      have hq : m.modelDefinition.verticeWidth ≥ 2.0 := by
        rw [hw]; norm_num; exact_mod_cast hg
      have hstep : (setVerticeWidth m ScaleType.scaleMinus).modelDefinition.verticeWidth =
          m.modelDefinition.verticeWidth - 1.0 := by
        simp only [setVerticeWidth, reduceCtorEq, if_false, if_true, if_pos hq]
      rw [hstep, hw, Nat.cast_sub (by omega)]
      norm_num
    · refine ⟨n, h1, h2, ?_⟩
      have hq : ¬ m.modelDefinition.verticeWidth ≥ 2.0 := by
        rw [hw]; norm_num; exact_mod_cast (not_le.mp hg)
      have hstep : setVerticeWidth m ScaleType.scaleMinus = m := by
        simp only [setVerticeWidth, reduceCtorEq, if_false, if_true, if_neg hq]
      rw [hstep, hw]

/-- C28: starting from the default vertex width 5.0, the widths reachable by
`setVerticeWidth(scalePlus)` and `setVerticeWidth(scaleMinus)` calls are exactly the
integers 1 to 13: '+' at 12 gives 13, '-' at 2 gives 1, and '+' at 13 and '-' at 1
leave the width unchanged. -/
theorem verticeWidth_reachable_set (m : ViewerModel)
    (h : m.modelDefinition.verticeWidth = 5.0) (w : ℚ) :
    ((∃ calls : List ScaleType,
        (calls.foldl setVerticeWidth m).modelDefinition.verticeWidth = w) ↔
      ∃ n : Nat, 1 ≤ n ∧ n ≤ 13 ∧ w = n) ∧
    (∀ s : ViewerModel, s.modelDefinition.verticeWidth = 12 →
      (setVerticeWidth s ScaleType.scalePlus).modelDefinition.verticeWidth = 13) ∧
    (∀ s : ViewerModel, s.modelDefinition.verticeWidth = 2 →
      (setVerticeWidth s ScaleType.scaleMinus).modelDefinition.verticeWidth = 1) ∧
    (∀ s : ViewerModel, s.modelDefinition.verticeWidth = 13 →
      setVerticeWidth s ScaleType.scalePlus = s) ∧
    (∀ s : ViewerModel, s.modelDefinition.verticeWidth = 1 →
      setVerticeWidth s ScaleType.scaleMinus = s) := by
  have h5 : m.modelDefinition.verticeWidth = (freshModel {}).modelDefinition.verticeWidth := by
    rw [h]; norm_num [freshModel]
  refine ⟨⟨?_, ?_⟩, ?_, ?_, ?_, ?_⟩
  · rintro ⟨calls, hc⟩
    have key : ∀ (cs : List ScaleType) (s : ViewerModel),
        (∃ n : Nat, 1 ≤ n ∧ n ≤ 13 ∧ s.modelDefinition.verticeWidth = n) →
        ∃ n : Nat, 1 ≤ n ∧ n ≤ 13 ∧
          (cs.foldl setVerticeWidth s).modelDefinition.verticeWidth = n := by
      intro cs
      induction cs with
      | nil => intro s hs; exact hs
      | cons c rest ih => intro s hs; exact ih _ (setVerticeWidth_keeps_integer s c hs)
    obtain ⟨n, h1, h2, hn⟩ := key calls m ⟨5, by omega, by omega, by rw [h]; norm_num⟩
    exact ⟨n, h1, h2, by rw [← hc, hn]⟩
  · rintro ⟨n, h1, h2, rfl⟩
    have hall : ∀ k : Fin 14, 1 ≤ k.val →
        ((if k.val ≥ 5 then List.replicate (k.val - 5) ScaleType.scalePlus
          else List.replicate (5 - k.val) ScaleType.scaleMinus).foldl setVerticeWidth
          (freshModel {})).modelDefinition.verticeWidth = (k.val : ℚ) := by
      decide!
    refine ⟨if n ≥ 5 then List.replicate (n - 5) ScaleType.scalePlus
      else List.replicate (5 - n) ScaleType.scaleMinus, ?_⟩
    rw [setVerticeWidth_calls_congr _ m (freshModel {}) h5]
    exact hall ⟨n, by omega⟩ h1
  · intro s hs
    simp [setVerticeWidth, hs]; norm_num
  · intro s hs
    simp [setVerticeWidth, hs]; norm_num
  · intro s hs
    simp [setVerticeWidth, hs]
    norm_num
  · intro s hs
    simp [setVerticeWidth, hs]
    norm_num

/-- C28 at the fresh model: the width 13 is reached, and so is 1. -/
theorem verticeWidth_reachable_set_witness :
    (freshModel {}).modelDefinition.verticeWidth = 5.0 ∧
      (∃ calls : List ScaleType,
        (calls.foldl setVerticeWidth (freshModel {})).modelDefinition.verticeWidth = 13) ∧
      (∃ calls : List ScaleType,
        (calls.foldl setVerticeWidth (freshModel {})).modelDefinition.verticeWidth = 1) ∧
      ¬ ∃ calls : List ScaleType,
        (calls.foldl setVerticeWidth (freshModel {})).modelDefinition.verticeWidth = 14 := by
  have h5 : (freshModel {}).modelDefinition.verticeWidth = 5.0 := by norm_num [freshModel]
  refine ⟨h5, ?_, ?_, ?_⟩
  · exact ((verticeWidth_reachable_set (freshModel {}) h5 13).1).mpr
      ⟨13, by omega, by omega, by norm_num⟩
  · exact ((verticeWidth_reachable_set (freshModel {}) h5 1).1).mpr
      ⟨1, by omega, by omega, by norm_num⟩
  · intro hex
    obtain ⟨n, _, h2, hn⟩ := ((verticeWidth_reachable_set (freshModel {}) h5 14).1).mp hex
    have : (14 : ℚ) = ((14 : Nat) : ℚ) := by norm_num
    rw [this] at hn
    have := Nat.cast_injective hn
    omega

/-! ## Normalisation: the divisor -/

/-- On one axis the extent of the bounding box is not negative, and it is positive
exactly when two vertices differ in that coordinate. -/
theorem extent_pos_iff (c : QVector3D → ℚ) (v0 : QVector3D) (vs : List QVector3D) :
    0 ≤ foldMax c (c v0) (v0 :: vs) - foldMin c (c v0) (v0 :: vs) ∧
      (0 < foldMax c (c v0) (v0 :: vs) - foldMin c (c v0) (v0 :: vs) ↔
        ∃ u ∈ v0 :: vs, ∃ v ∈ v0 :: vs, c u ≠ c v) := by
  obtain ⟨⟨a, ha, hca⟩, hmin⟩ := foldMin_isBoxMin c v0 vs
  obtain ⟨⟨b, hb, hcb⟩, hmax⟩ := foldMax_isBoxMax c v0 vs
  have h0 := (foldMin_spec c (c v0) (v0 :: vs)).1
  have h1 := (foldMax_spec c (c v0) (v0 :: vs)).1
  refine ⟨by linarith, ?_, ?_⟩
  · intro hpos
    refine ⟨a, ha, b, hb, ?_⟩
    intro heq
    rw [hca, hcb] at heq
    rw [heq] at hpos
    linarith
  · rintro ⟨u, hu, v, hv, hne⟩
    have hu1 := hmin u hu
    have hu2 := hmax u hu
    have hv1 := hmin v hv
    have hv2 := hmax v hv
    rcases lt_or_gt_of_ne hne with h | h
    · linarith
    · linarith

/-- The divisor of `normalizeVertices` is positive exactly when two vertices of the
mesh differ in some coordinate. -/
theorem maxSize_pos_iff (v0 : QVector3D) (vs : List QVector3D) :
    0 < maxSize v0 (v0 :: vs) ↔
      ∃ u ∈ v0 :: vs, ∃ v ∈ v0 :: vs, u.x ≠ v.x ∨ u.y ≠ v.y ∨ u.z ≠ v.z := by
  have hx := extent_pos_iff QVector3D.x v0 vs
  have hy := extent_pos_iff QVector3D.y v0 vs
  have hz := extent_pos_iff QVector3D.z v0 vs
  unfold maxSize
  simp only [lt_max_iff]
  constructor
  · rintro (h | h | h)
    · obtain ⟨u, hu, v, hv, hne⟩ := hx.2.mp h
      exact ⟨u, hu, v, hv, Or.inl hne⟩
    · obtain ⟨u, hu, v, hv, hne⟩ := hy.2.mp h
      exact ⟨u, hu, v, hv, Or.inr (Or.inl hne)⟩
    · obtain ⟨u, hu, v, hv, hne⟩ := hz.2.mp h
      exact ⟨u, hu, v, hv, Or.inr (Or.inr hne)⟩
  · rintro ⟨u, hu, v, hv, hne | hne | hne⟩
    · exact Or.inl (hx.2.mpr ⟨u, hu, v, hv, hne⟩)
    · exact Or.inr (Or.inl (hy.2.mpr ⟨u, hu, v, hv, hne⟩))
    · exact Or.inr (Or.inr (hz.2.mpr ⟨u, hu, v, hv, hne⟩))

/-- The divisor of `normalizeVertices` is never negative. -/
theorem maxSize_nonneg (v0 : QVector3D) (vs : List QVector3D) :
    0 ≤ maxSize v0 (v0 :: vs) := by
  unfold maxSize
  exact le_trans (extent_pos_iff QVector3D.x v0 vs).1 (le_max_left _ _)

/-- C25: `normalizeVertices` divides by `maxSize` and its only guard is the empty-mesh
check: on every non-empty mesh each coordinate is replaced by
`(c - center) / maxSize * 2`.  For every non-empty mesh `maxSize` is strictly positive
if and only if at least two vertices differ in some coordinate; for a non-empty mesh
whose vertices all coincide, every single-vertex mesh among them, `maxSize` is 0, so
that the division is by zero. -/
theorem maxSize_zero_iff_coincide (m : ViewerModel) (v0 : QVector3D) (vs : List QVector3D)
    (hm : m.vertices = v0 :: vs) :
    (normalizeVertices m).vertices =
        m.vertices.map (fun v =>
          { x := (v.x - (center v0 m.vertices).x) / maxSize v0 m.vertices * 2.0
            y := (v.y - (center v0 m.vertices).y) / maxSize v0 m.vertices * 2.0
            z := (v.z - (center v0 m.vertices).z) / maxSize v0 m.vertices * 2.0 }) ∧
      (0 < maxSize v0 m.vertices ↔
        ∃ u ∈ m.vertices, ∃ v ∈ m.vertices, u.x ≠ v.x ∨ u.y ≠ v.y ∨ u.z ≠ v.z) ∧
      ((∀ v ∈ m.vertices, v = v0) → maxSize v0 m.vertices = 0) ∧
      (vs = [] → maxSize v0 m.vertices = 0) := by
  have hzero : (∀ v ∈ v0 :: vs, v = v0) → maxSize v0 (v0 :: vs) = 0 := by
    intro hall
    have hnot : ¬ 0 < maxSize v0 (v0 :: vs) := by
      rw [maxSize_pos_iff]
      rintro ⟨u, hu, v, hv, hne⟩
      rw [hall u hu, hall v hv] at hne
      rcases hne with h | h | h <;> exact h rfl
    exact le_antisymm (not_lt.mp hnot) (maxSize_nonneg v0 vs)
  rw [normalizeVertices_cons m v0 vs hm, hm]
  refine ⟨rfl, maxSize_pos_iff v0 vs, hzero, ?_⟩
  intro hvs
  subst hvs
  exact hzero (by simp)

/-- C25 at a single-vertex mesh and at a mesh of two different vertices. -/
theorem maxSize_zero_iff_coincide_witness :
    maxSize { x := 3, y := 4, z := 5 } [{ x := 3, y := 4, z := 5 }] = 0 ∧
      0 < maxSize { x := 3, y := 4, z := 5 }
        [{ x := 3, y := 4, z := 5 }, { x := 3, y := 4, z := 6 }] := by
  have k1 := (maxSize_zero_iff_coincide { vertices := [{ x := 3, y := 4, z := 5 }] }
    { x := 3, y := 4, z := 5 } [] rfl).2.2.2 rfl
  have k2 := ((maxSize_zero_iff_coincide
    { vertices := [{ x := 3, y := 4, z := 5 }, { x := 3, y := 4, z := 6 }] }
    { x := 3, y := 4, z := 5 } [{ x := 3, y := 4, z := 6 }] rfl).2.1).mpr
    ⟨{ x := 3, y := 4, z := 5 }, by simp, { x := 3, y := 4, z := 6 }, by simp,
      Or.inr (Or.inr (by norm_num))⟩
  exact ⟨k1, k2⟩

/-! ## Text input: the sign -/

/-- A number field without a minus sign has no negative value. -/
theorem FloatField_value_nonneg (f : FloatField) (h : f.negative = false) :
    0 ≤ f.value.getD 0 := by
  unfold FloatField.value
  simp only [h, Bool.false_eq_true, if_false]
  split_ifs
  · simp
  · simp
  · simp only [Option.getD_some]
    positivity
  · simp only [Option.getD_some]
    positivity

/-- What `trimmed` leaves was in the text. -/
theorem mem_of_mem_trimmed (s : List Char) (c : Char) (h : c ∈ QString_trimmed s) : c ∈ s := by
  unfold QString_trimmed at h
  exact (List.dropWhile_suffix QChar_isSpace).subset
    ((List.rdropWhile_prefix QChar_isSpace _).subset h)

/-- On text without a minus sign `toFloat` gives no negative number. -/
theorem toFloat_nonneg (s : List Char) (h : ∀ c ∈ s, c ≠ '-') : 0 ≤ QString_toFloat s := by
  unfold QString_toFloat
  simp only []
  split_ifs
  · apply FloatField_value_nonneg
    have hneg : (takeFloatField (QString_trimmed s)).negative =
        decide ((QString_trimmed s).head? = some '-') := rfl
    rw [hneg]
    rcases ht : QString_trimmed s with _ | ⟨c, cs⟩
    · simp
    · have hc : c ∈ s := mem_of_mem_trimmed s c (by rw [ht]; simp)
      simp [h c hc]
  · exact le_refl _

/-- C29: `makeFloat` drops the sign: for every input the result is not negative, and a
minus sign in front changes nothing, `makeFloat("-" ++ s) = makeFloat(s)` for every
text `s`, the texts of digits with at most one '.' among them; "-5" gives 5. -/
theorem makeFloat_drops_sign (s : List Char) :
    0 ≤ makeFloat s ∧ makeFloat ('-' :: s) = makeFloat s ∧ makeFloat "-5".toList = 5 ∧
      makeFloat "-12.5".toList = makeFloat "12.5".toList := by
  refine ⟨?_, ?_, by decide!, by decide!⟩
  · unfold makeFloat
    simp only []
    apply toFloat_nonneg
    intro c hc
    rw [removeNotDigitOrPoint_eq_filter, List.mem_filter] at hc
    intro h0
    subst h0
    exact absurd hc.2 (by decide)
  · unfold makeFloat
    simp only []
    have h : removeNotDigitOrPoint ('-' :: s) = removeNotDigitOrPoint s := by
      rw [removeNotDigitOrPoint]
      rw [if_neg (by decide)]
    rw [h]

/-! ## Normalisation: only the shape matters -/

/-- The faces of the bounding box of a mesh that was scaled by a positive `k` and moved
by `t` on one axis. -/
theorem similar_faces (c : QVector3D → ℚ) (g : QVector3D → QVector3D) (k tc : ℚ)
    (hk : 0 < k) (hg : ∀ v, c (g v) = k * c v + tc) (v0 : QVector3D) (vs : List QVector3D) :
    foldMin c (c (g v0)) ((v0 :: vs).map g) = k * foldMin c (c v0) (v0 :: vs) + tc ∧
      foldMax c (c (g v0)) ((v0 :: vs).map g) = k * foldMax c (c v0) (v0 :: vs) + tc := by
  have hmono : Monotone (fun x : ℚ => k * x + tc) := by
    intro a b hab
    exact add_le_add_right (mul_le_mul_of_nonneg_left hab hk.le) tc
  have hmin := IsBoxMin_map c g _ hmono hg (v0 :: vs) _ (foldMin_isBoxMin c v0 vs)
  have hmax := IsBoxMax_map c g _ hmono hg (v0 :: vs) _ (foldMax_isBoxMax c v0 vs)
  have fmin := foldMin_isBoxMin c (g v0) (vs.map g)
  have fmax := foldMax_isBoxMax c (g v0) (vs.map g)
  rw [← List.map_cons] at fmin fmax
  exact ⟨IsBoxMin_unique c _ _ _ fmin hmin, IsBoxMax_unique c _ _ _ fmax hmax⟩

/-- Centre and largest extent of a mesh that was scaled by a positive `k` and moved by
`t`: the centre is scaled and moved, the extent is scaled. -/
theorem similar_center_and_size (k : ℚ) (t : QVector3D) (hk : 0 < k) (v0 : QVector3D)
    (vs : List QVector3D) :
    center (similarity k t v0) ((v0 :: vs).map (similarity k t)) =
        similarity k t (center v0 (v0 :: vs)) ∧
      maxSize (similarity k t v0) ((v0 :: vs).map (similarity k t)) =
        k * maxSize v0 (v0 :: vs) := by
  have hx := similar_faces QVector3D.x (similarity k t) k t.x hk (fun _ => rfl) v0 vs
  have hy := similar_faces QVector3D.y (similarity k t) k t.y hk (fun _ => rfl) v0 vs
  have hz := similar_faces QVector3D.z (similarity k t) k t.z hk (fun _ => rfl) v0 vs
  have hm : max (foldMax QVector3D.x v0.x (v0 :: vs) - foldMin QVector3D.x v0.x (v0 :: vs))
      (max (foldMax QVector3D.y v0.y (v0 :: vs) - foldMin QVector3D.y v0.y (v0 :: vs))
        (foldMax QVector3D.z v0.z (v0 :: vs) - foldMin QVector3D.z v0.z (v0 :: vs)))
      = maxSize v0 (v0 :: vs) := rfl
  constructor
  · unfold center
    rw [hx.1, hx.2, hy.1, hy.2, hz.1, hz.2]
    simp only [similarity, QVector3D.mk.injEq]
    refine ⟨?_, ?_, ?_⟩ <;> ring
  · rw [maxSize.eq_def (similarity k t v0)]
    simp only []
    rw [hx.1, hx.2, hy.1, hy.2, hz.1, hz.2]
    have hsub : ∀ a b c : ℚ, k * a + c - (k * b + c) = (a - b) * k := by intro a b c; ring
    simp only [hsub]
    rw [← max_mul_of_nonneg _ _ hk.le, ← max_mul_of_nonneg _ _ hk.le, hm]
    ring

/-- The second loop of `normalizeVertices` gives the same vertex for a vertex of the
scaled and moved mesh as for the vertex it came from. -/
theorem normalizePoint_similarity (k s : ℚ) (t c v : QVector3D) (hk : 0 < k) (hs : 0 < s) :
    normalizePoint (similarity k t c) (k * s) (similarity k t v) = normalizePoint c s v := by
  have hk0 : k ≠ 0 := ne_of_gt hk
  have hs0 : s ≠ 0 := ne_of_gt hs
  simp only [normalizePoint, similarity, QVector3D.mk.injEq]
  refine ⟨?_, ?_, ?_⟩ <;> field_simp <;> ring

/-- C30: normalisation depends on the shape of the mesh only: for every mesh with a
positive largest extent, every translation vector `t` and every uniform scale `k > 0`,
normalising the mesh of the vertices `k * v + t` gives exactly the vertices that
normalising the mesh itself gives, in the same number and order. -/
theorem normalizeVertices_similarity_invariant (m : ViewerModel) (v0 : QVector3D)
    (vs : List QVector3D) (hm : m.vertices = v0 :: vs) (hs : 0 < maxSize v0 m.vertices)
    (k : ℚ) (hk : 0 < k) (t : QVector3D) :
    (normalizeVertices { m with vertices := m.vertices.map (similarity k t) }).vertices =
        (normalizeVertices m).vertices ∧
      (normalizeVertices { m with vertices := m.vertices.map (similarity k t) }).vertices.length =
        m.vertices.length ∧
      (normalizeVertices m).vertices.length = m.vertices.length := by
  have hmain : (normalizeVertices
      { m with vertices := m.vertices.map (similarity k t) }).vertices =
      (normalizeVertices m).vertices := by
    rw [normalizeVertices_cons m v0 vs hm]
    rw [normalizeVertices_cons { m with vertices := m.vertices.map (similarity k t) }
      (similarity k t v0) (vs.map (similarity k t)) (by simp [hm])]
    simp only []
    rw [hm] at hs ⊢
    obtain ⟨hc, hsz⟩ := similar_center_and_size k t hk v0 vs
    rw [hc, hsz, List.map_map]
    apply List.map_congr_left
    intro v _
    exact normalizePoint_similarity k _ t _ v hk hs
  refine ⟨hmain, ?_, ?_⟩
  · rw [hmain, normalizeVertices_cons m v0 vs hm, List.length_map]
  · rw [normalizeVertices_cons m v0 vs hm, List.length_map]

/-- C30 at the mesh (0,0,0), (4,2,0), scaled by 3 and moved by (1,-1,5). -/
theorem normalizeVertices_similarity_invariant_witness :
    (0 : ℚ) < maxSize { x := 0, y := 0, z := 0 }
        [{ x := 0, y := 0, z := 0 }, { x := 4, y := 2, z := 0 }] ∧
      (0 : ℚ) < 3 ∧
      (normalizeVertices { vertices := [{ x := 1, y := -1, z := 5 },
          { x := 13, y := 5, z := 5 }] }).vertices =
        (normalizeVertices { vertices := [{ x := 0, y := 0, z := 0 },
          { x := 4, y := 2, z := 0 }] }).vertices := by
  have hs : (0 : ℚ) < maxSize { x := 0, y := 0, z := 0 }
      [{ x := 0, y := 0, z := 0 }, { x := 4, y := 2, z := 0 }] := by decide!
  have k := (normalizeVertices_similarity_invariant
    { vertices := [{ x := 0, y := 0, z := 0 }, { x := 4, y := 2, z := 0 }] }
    { x := 0, y := 0, z := 0 } [{ x := 4, y := 2, z := 0 }] rfl hs 3 (by norm_num)
    { x := 1, y := -1, z := 5 }).1
  refine ⟨hs, by norm_num, ?_⟩
  have hmap : ([{ x := 0, y := 0, z := 0 }, { x := 4, y := 2, z := 0 }] : List QVector3D).map
      (similarity 3 { x := 1, y := -1, z := 5 }) =
      [{ x := 1, y := -1, z := 5 }, { x := 13, y := 5, z := 5 }] := by decide!
  simp only [hmap] at k
  exact k

end s21
